import Mathlib

/-!
Verification development for the PBX call-monitoring engine of the
`ldap_editor` repository (`pbx_monitor.py`, `ucm_client.py`).

The Python code is shallowly embedded: every handler becomes a pure
function from an explicit `MonitorState` (the monitor's in-memory maps,
the SQLite `call_log` table modelled as a list of rows) and an event
entry to a new state plus the list of fan-out events broadcast during
that call.  Python dicts become insertion-ordered association lists,
Python sets become duplicate-free lists, string truthiness (`""` is
falsy) is made explicit via `pyOr`.
-/

namespace PbxMonitor

/-- Python `a or b` on strings: the empty string is falsy. -/
def pyOr (a b : String) : String := if a = "" then b else a

/-- One entry of an `ActiveCallStatus` `eventbody`.  Every field defaults to
`""`, mirroring `entry.get(key, "")` in the source; `linkedid` is an
`Option` because `_handle_unbridge` reads it with a non-constant default
(`entry.get("linkedid", uniqueid or channel)`), so a missing key and a
present-but-empty value behave differently there. -/
structure Entry where
  chantype : String := ""
  action : String := ""
  uniqueid : String := ""
  linkedid : Option String := none
  channel : String := ""
  channel1 : String := ""
  channel2 : String := ""
  state : String := ""
  callernum : String := ""
  connectednum : String := ""
  connectedname : String := ""
  callerid1 : String := ""
  callerid2 : String := ""
  name1 : String := ""
  name2 : String := ""
  inbound_trunk_name : String := ""
  outbound_trunk_name : String := ""
  bridge_time : String := ""
  deriving DecidableEq

/-- An `active_calls` value: the dict built in `_handle_unbridge` (state
`"ringing"`, with the swapped caller perspective) or in `_handle_bridge`
(state `"connected"`). -/
inductive CallRecord where
  | ringing (uniqueid callernum callername connectednum : String)
      (extensions : List String)
  | connected (uniqueid callerid1 callerid2 name1 name2 bridge_time : String)
  deriving DecidableEq

/-- One row of the SQLite `call_log` table, with the schema's defaults. -/
structure Row where
  timestamp : String
  direction : String
  external_number : String
  internal_ext : String := ""
  internal_name : String := ""
  answered : Nat := 0
  duration : Int := 0
  linkedid : String := ""
  deriving DecidableEq

/-- A fan-out event passed to `_broadcast_event`. -/
inductive Event where
  | extension_status (extension status : String)
  | call_ring (uniqueid callernum connectednum callername : String)
  | call_connect (uniqueid callerid1 callerid2 name1 name2 bridge_time : String)
  | call_hangup (uniqueid : String)
  deriving DecidableEq

/-- The monitor's in-memory state plus the `call_log` table.  `hasDb` is the
truthiness of `self._db` (`None` when no db path was given or init failed). -/
structure MonitorState where
  active_calls : List (String × CallRecord) := []
  extension_status : List (String × String) := []
  channel_map : List (String × String) := []
  call_channels : List (String × List String) := []
  incoming_linkedids : List String := []
  call_log_meta : List (String × Option String) := []
  call_log : List Row := []
  hasDb : Bool := true
  deriving DecidableEq

/-! ### Dict / set primitives (insertion-ordered, as Python dicts) -/

/-- Dict read: `d.get(k)`. -/
def aget {α : Type} (k : String) : List (String × α) → Option α
  | [] => none
  | p :: rest => if p.1 = k then some p.2 else aget k rest

/-- Dict write `d[k] = v`: updates in place, appends a fresh key at the end. -/
def aupd {α : Type} (k : String) (v : α) : List (String × α) → List (String × α)
  | [] => [(k, v)]
  | p :: rest => if p.1 = k then (k, v) :: rest else p :: aupd k v rest

/-- Dict removal `d.pop(k, None)` (ignoring the returned value). -/
def apop {α : Type} (k : String) : List (String × α) → List (String × α)
  | [] => []
  | p :: rest => if p.1 = k then apop k rest else p :: apop k rest

/-- Set insertion `s.add(x)`. -/
def sadd (x : String) (s : List String) : List String :=
  if x ∈ s then s else s ++ [x]

/-- Set removal `s.discard(x)`. -/
def sdisc (x : String) : List String → List String
  | [] => []
  | y :: rest => if y = x then sdisc x rest else y :: sdisc x rest

/-! ### Timestamp parsing (`datetime.strptime(s, "%Y-%m-%d %H:%M:%S")`) -/

/-- `True` exactly for Gregorian leap years. -/
def isLeap (y : Nat) : Bool := decide ((y % 4 = 0 ∧ y % 100 ≠ 0) ∨ y % 400 = 0)

/-- Length of month `m` in year `y`. -/
def daysInMonth (y m : Nat) : Nat :=
  if m = 2 then (if isLeap y then 29 else 28)
  else if m = 4 ∨ m = 6 ∨ m = 9 ∨ m = 11 then 30
  else 31

/-- Days since the civil epoch for a valid Gregorian date (`y ≥ 1`). -/
def daysFromCivil (y m d : Nat) : Nat :=
  let y' := if m ≤ 2 then y - 1 else y
  let era := y' / 400
  let yoe := y' % 400
  let mp := if 2 < m then m - 3 else m + 9
  let doy := (153 * mp + 2) / 5 + (d - 1)
  let doe := yoe * 365 + yoe / 4 - yoe / 100 + doy
  era * 146097 + doe

/-- Seconds corresponding to a date-time sextuple. -/
def toSecs (y m d hh mi ss : Nat) : Nat :=
  daysFromCivil y m d * 86400 + hh * 3600 + mi * 60 + ss

/-- Split a character list on a separator character. -/
def splitOnChar (c : Char) : List Char → List (List Char)
  | [] => [[]]
  | x :: xs =>
    let r := splitOnChar c xs
    if x = c then [] :: r
    else
      match r with
      | [] => [[x]]
      | g :: gs => (x :: g) :: gs

/-- Read a non-empty all-digit character list as a natural number. -/
def charsToNat? (l : List Char) : Option Nat :=
  if l ≠ [] ∧ l.all Char.isDigit then
    some (l.foldl (fun n c => n * 10 + (c.toNat - 48)) 0)
  else none

/-- Parse a `"YYYY-MM-DD HH:MM:SS"` string into seconds; `none` when
`datetime.strptime` would raise `ValueError`. -/
def parseDateTime (s : String) : Option Nat :=
  match splitOnChar ' ' s.data with
  | [ds, ts] =>
    match splitOnChar '-' ds, splitOnChar ':' ts with
    | [ys, ms, dds], [hs, mis, sss] =>
      match charsToNat? ys, charsToNat? ms, charsToNat? dds,
          charsToNat? hs, charsToNat? mis, charsToNat? sss with
      | some y, some m, some d, some hh, some mi, some ss =>
        if 1 ≤ y ∧ y ≤ 9999 ∧ 1 ≤ m ∧ m ≤ 12 ∧ 1 ≤ d ∧ d ≤ daysInMonth y m
            ∧ hh ≤ 23 ∧ mi ≤ 59 ∧ ss ≤ 59 then
          some (toSecs y m d hh mi ss)
        else none
      | _, _, _, _, _, _ => none
    | _, _ => none
  | _ => none

/-! ### Channel indexing and the call-history writer -/

/-- `self._channel_map[channel] = linkedid;
self._call_channels.setdefault(linkedid, set()).add(channel)`. -/
def indexChannel (ch lid : String) (st : MonitorState) : MonitorState :=
  { st with
      channel_map := aupd ch lid st.channel_map,
      call_channels :=
        aupd lid (sadd ch ((aget lid st.call_channels).getD [])) st.call_channels }

/-- `_log_inbound_ring`: insert an inbound row and remember
`{"bridge_time": None}` metadata (both only when a database is open). -/
def log_inbound_ring (st : MonitorState) (lid external_number nowStr : String) :
    MonitorState :=
  if st.hasDb then
    { st with
        call_log := st.call_log ++
          [{ timestamp := nowStr, direction := "inbound",
             external_number := external_number, linkedid := lid }],
        call_log_meta := aupd lid none st.call_log_meta }
  else st

/-- `_log_call_answered`: mark every row of this correlation id answered and
record the bridge time in the metadata when metadata exists. -/
def log_call_answered (st : MonitorState)
    (lid internal_ext internal_name bridge_time : String) : MonitorState :=
  if st.hasDb then
    { st with
        call_log := st.call_log.map (fun r =>
          if r.linkedid = lid then
            { r with answered := 1, internal_ext := internal_ext,
                     internal_name := internal_name }
          else r),
        call_log_meta :=
          match aget lid st.call_log_meta with
          | none => st.call_log_meta
          | some _ => aupd lid (some bridge_time) st.call_log_meta }
  else st

/-- `_log_outbound_call`: insert an answered outbound row and remember the
bridge time. -/
def log_outbound_call (st : MonitorState)
    (lid timestamp external_number internal_ext internal_name : String) :
    MonitorState :=
  if st.hasDb then
    { st with
        call_log := st.call_log ++
          [{ timestamp := timestamp, direction := "outbound",
             external_number := external_number, internal_ext := internal_ext,
             internal_name := internal_name, answered := 1, linkedid := lid }],
        call_log_meta := aupd lid (some timestamp) st.call_log_meta }
  else st

/-- `_finalize_call_log`: pop the metadata; bail out when there was none, when
no database is open, when the remembered bridge time is falsy, or when it does
not parse; otherwise write `duration = max(0, now - bridge_time)`. -/
def finalize_call_log (st : MonitorState) (lid : String) (nowSec : Int) :
    MonitorState :=
  let meta := aget lid st.call_log_meta
  let st1 := { st with call_log_meta := apop lid st.call_log_meta }
  match meta with
  | none => st1
  | some bt? =>
    if st1.hasDb then
      match bt? with
      | none => st1
      | some bts =>
        if bts = "" then st1
        else
          match parseDateTime bts with
          | none => st1
          | some bt =>
            { st1 with call_log := st1.call_log.map (fun r =>
                if r.linkedid = lid then
                  { r with duration := max 0 (nowSec - (bt : Int)) }
                else r) }
    else st1

/-! ### Unbridge family (`_handle_unbridge`) -/

/-- `linkedid = entry.get("linkedid", uniqueid or channel)`. -/
def unbridgeLinkedid (e : Entry) : String :=
  e.linkedid.getD (pyOr e.uniqueid e.channel)

/-- The Ring/Ringing body of `_handle_unbridge` for `add`/`update`, after the
channel has been indexed. -/
def unbridge_ring_core (st : MonitorState) (e : Entry) (nowStr : String) :
    MonitorState × List Event :=
  let linkedid := unbridgeLinkedid e
  if e.inbound_trunk_name ≠ "" then
    (if linkedid ≠ "" then
       { st with incoming_linkedids := sadd linkedid st.incoming_linkedids }
     else st, [])
  else if linkedid = "" ∨ linkedid ∉ st.incoming_linkedids then (st, [])
  else
    match aget linkedid st.active_calls with
    | some (CallRecord.ringing u cn cnm cdn exts) =>
      let grown := aupd linkedid
        (CallRecord.ringing u cn cnm cdn (exts ++ [e.callernum])) st.active_calls
      (if e.callernum ≠ "" ∧ e.callernum ∉ exts then
         { st with active_calls := grown }
       else st, [])
    | some (CallRecord.connected _ _ _ _ _ _) => (st, [])
    | none =>
      let newRec := CallRecord.ringing linkedid e.connectednum e.connectedname
        e.callernum (if e.callernum ≠ "" then [e.callernum] else [])
      let st1 := { st with active_calls := aupd linkedid newRec st.active_calls }
      let st2 := log_inbound_ring st1 linkedid e.connectednum nowStr
      (st2, [Event.call_ring linkedid e.connectednum e.callernum e.connectedname])

/-- `_handle_unbridge` for `action ∈ {add, update}`: track the
channel → linkedid mapping, then handle Ring/Ringing states. -/
def handle_unbridge_addupdate (st : MonitorState) (e : Entry) (nowStr : String) :
    MonitorState × List Event :=
  let linkedid := unbridgeLinkedid e
  let st1 := if e.channel ≠ "" ∧ linkedid ≠ "" then
               indexChannel e.channel linkedid st
             else st
  if e.state = "Ring" ∨ e.state = "Ringing" then unbridge_ring_core st1 e nowStr
  else (st1, [])

/-- Common tail of both delete handlers once a correlation id's channel set
became empty: drop `call_channels` and the inbound mark, finalize the log, pop
the active call and broadcast `call_hangup` when one was removed. -/
def removal_finalize (st : MonitorState) (linked : String) (nowSec : Int) :
    MonitorState × List Event :=
  let st1 := { st with
      call_channels := apop linked st.call_channels,
      incoming_linkedids := sdisc linked st.incoming_linkedids }
  let st2 := finalize_call_log st1 linked nowSec
  match aget linked st2.active_calls with
  | some _ =>
    ({ st2 with active_calls := apop linked st2.active_calls },
     [Event.call_hangup linked])
  | none => (st2, [])

/-- `_handle_unbridge` for `action = delete`: the entry carries only a
channel; resolve the correlation id through `channel_map`. -/
def handle_unbridge_delete (st : MonitorState) (e : Entry) (nowSec : Int) :
    MonitorState × List Event :=
  if e.channel = "" then (st, [])
  else
    match aget e.channel st.channel_map with
    | none => (st, [])
    | some linked =>
      let st1 := { st with channel_map := apop e.channel st.channel_map }
      if linked ≠ "" then
        let channels := sdisc e.channel ((aget linked st1.call_channels).getD [])
        if channels = [] then removal_finalize st1 linked nowSec
        else ({ st1 with call_channels := aupd linked channels st1.call_channels }, [])
      else (st1, [])

/-! ### Bridge family (`_handle_bridge`) -/

/-- `_resolve_bridge_linkedid`: explicit linkedid first, then channel1 /
channel2 / channel through `channel_map`. -/
def resolve_bridge_linkedid (st : MonitorState) (e : Entry) : String :=
  let l := e.linkedid.getD ""
  if l ≠ "" then l
  else
    match (if e.channel1 ≠ "" then aget e.channel1 st.channel_map else none) with
    | some r => r
    | none =>
      match (if e.channel2 ≠ "" then aget e.channel2 st.channel_map else none) with
      | some r => r
      | none =>
        match (if e.channel ≠ "" then aget e.channel st.channel_map else none) with
        | some r => r
        | none => ""

/-- The full correlation id used by `_handle_bridge` on add/update:
`_resolve_bridge_linkedid`, then the outbound fallback
`uniqueid or channel1 or channel2 or channel`. -/
def bridgeResolvedId (st : MonitorState) (e : Entry) : String :=
  let l := resolve_bridge_linkedid st e
  if l = "" ∧ e.outbound_trunk_name ≠ "" then
    pyOr e.uniqueid (pyOr e.channel1 (pyOr e.channel2 e.channel))
  else l

/-- Keep the non-empty strings of a list (in order). -/
def nonEmptyChans : List String → List String
  | [] => []
  | c :: rest => if c = "" then nonEmptyChans rest else c :: nonEmptyChans rest

/-- `bridge_channels = [ch for ch in (channel, channel1, channel2) if ch]`. -/
def bridgeChannels (e : Entry) : List String :=
  nonEmptyChans [e.channel, e.channel1, e.channel2]

/-- Whether `needle` is an initial segment of `hay`. -/
def beginsWith : List Char → List Char → Bool
  | [], _ => true
  | _ :: _, [] => false
  | n :: ns, h :: hs => n = h && beginsWith ns hs

/-- Whether `needle` occurs as a contiguous subsequence of `hay`
(Python `needle in hay` on strings). -/
def containsSeq (needle : List Char) : List Char → Bool
  | [] => beginsWith needle []
  | h :: hs => beginsWith needle (h :: hs) || containsSeq needle hs

/-- Python `"trunk" in s.lower()`. -/
def containsTrunk (s : String) : Bool :=
  containsSeq "trunk".data (s.data.map Char.toLower)

/-- `_extract_bridge_parties`: the channel whose lower-cased name contains the
substring `"trunk"` is the external leg; returns Python `None` as `none`. -/
def extract_bridge_parties (e : Entry) :
    Option String × Option String × Option String :=
  if containsTrunk e.channel1 then
    (some e.callerid1, some e.callerid2, some e.name2)
  else if containsTrunk e.channel2 then
    (some e.callerid2, some e.callerid1, some e.name1)
  else (none, none, none)

/-- Index every non-empty bridge channel under the resolved correlation id. -/
def bridge_index_channels (st : MonitorState) (lid : String) (e : Entry) :
    MonitorState :=
  (bridgeChannels e).foldl (fun s ch => indexChannel ch lid s) st

/-- Outbound detection: log an outbound row when the entry has an outbound
trunk name, no inbound trunk name, and a truthy external number. -/
def bridge_outbound_step (st : MonitorState) (lid : String) (e : Entry)
    (nowStr : String) : MonitorState :=
  if e.outbound_trunk_name ≠ "" ∧ e.inbound_trunk_name = "" then
    let parts := extract_bridge_parties e
    if parts.1.getD "" ≠ "" then
      log_outbound_call st lid (pyOr e.bridge_time nowStr) (parts.1.getD "")
        (parts.2.1.getD "") (parts.2.2.getD "")
    else st
  else st

/-- Inbound answered update: only for inbound correlation ids with pending
call-log metadata. -/
def bridge_answered_step (st : MonitorState) (lid : String) (e : Entry) :
    MonitorState :=
  if lid ∈ st.incoming_linkedids ∧ (aget lid st.call_log_meta).isSome then
    let parts := extract_bridge_parties e
    log_call_answered st lid (parts.2.1.getD "") (parts.2.2.getD "") e.bridge_time
  else st

/-- `_handle_bridge` for `action ∈ {add, update}`. -/
def handle_bridge_addupdate (st : MonitorState) (e : Entry) (nowStr : String) :
    MonitorState × List Event :=
  let lid := bridgeResolvedId st e
  if lid = "" then (st, [])
  else
    let st1 := bridge_index_channels st lid e
    let st2 := bridge_outbound_step st1 lid e nowStr
    let st3 := bridge_answered_step st2 lid e
    if lid ∉ st3.incoming_linkedids then (st3, [])
    else if (aget lid st3.active_calls).isNone then (st3, [])
    else
      let ci := CallRecord.connected lid e.callerid1 e.callerid2 e.name1
        e.name2 e.bridge_time
      ({ st3 with active_calls := aupd lid ci st3.active_calls },
       [Event.call_connect lid e.callerid1 e.callerid2 e.name1 e.name2
          e.bridge_time])

/-- First channel of the list present in the channel map, with its value. -/
def firstInMap (m : List (String × String)) : List String → Option String
  | [] => none
  | ch :: rest =>
    match aget ch m with
    | some v => some v
    | none => firstInMap m rest

/-- `_handle_bridge` for `action = delete`: resolve through any present
channel, drop all the entry's channels from the map, then terminate the call
when its channel set became empty. -/
def handle_bridge_delete (st : MonitorState) (e : Entry) (nowSec : Int) :
    MonitorState × List Event :=
  let chans := bridgeChannels e
  let linked? := firstInMap st.channel_map chans
  let st1 := { st with channel_map := chans.foldl (fun m ch => apop ch m) st.channel_map }
  match linked? with
  | none => (st1, [])
  | some linked =>
    if linked ≠ "" then
      let remaining := chans.foldl (fun s ch => sdisc ch s)
        ((aget linked st1.call_channels).getD [])
      if remaining = [] then removal_finalize st1 linked nowSec
      else ({ st1 with call_channels := aupd linked remaining st1.call_channels }, [])
    else (st1, [])

/-! ### Batch processing (`_handle_active_call_status`) -/

/-- The sort key `0 if e.get("inbound_trunk_name") else 1`. -/
def sortKey (e : Entry) : Nat := if e.inbound_trunk_name ≠ "" then 0 else 1

/-- Stable insertion of an element before all strictly larger keys and, for
equal keys, before later elements (the element being inserted is the earlier
one in the original list). -/
def insertStable (e : Entry) : List Entry → List Entry
  | [] => [e]
  | x :: xs => if sortKey e ≤ sortKey x then e :: x :: xs else x :: insertStable e xs

/-- Stable sort by `sortKey`, as Python's stable `sorted(eventbody, key=...)`. -/
def sortEntries : List Entry → List Entry
  | [] => []
  | e :: es => insertStable e (sortEntries es)

/-- Dispatch of one entry on `chantype` and `action`. -/
def process_entry (st : MonitorState) (nowStr : String) (nowSec : Int)
    (e : Entry) : MonitorState × List Event :=
  if e.chantype = "unbridge" then
    if e.action = "add" ∨ e.action = "update" then
      handle_unbridge_addupdate st e nowStr
    else if e.action = "delete" then handle_unbridge_delete st e nowSec
    else (st, [])
  else if e.chantype = "bridge" then
    if e.action = "add" ∨ e.action = "update" then
      handle_bridge_addupdate st e nowStr
    else if e.action = "delete" then handle_bridge_delete st e nowSec
    else (st, [])
  else (st, [])

/-- Sequential processing of a list of entries, accumulating fan-out events. -/
def process_entries (st : MonitorState) (nowStr : String) (nowSec : Int) :
    List Entry → MonitorState × List Event
  | [] => (st, [])
  | e :: es =>
    let r := process_entry st nowStr nowSec e
    let r2 := process_entries r.1 nowStr nowSec es
    (r2.1, r.2 ++ r2.2)

/-- `_handle_active_call_status`: pre-sort the batch (trunk channels first),
then process the entries in that order. -/
def handle_active_call_status (st : MonitorState) (nowStr : String)
    (nowSec : Int) (eventbody : List Entry) : MonitorState × List Event :=
  process_entries st nowStr nowSec (sortEntries eventbody)

/-! ### Connection loop (`_connection_loop`) -/

/-- How one `_connect_and_run` session ends: one of the four caught transport
or protocol failures, any other exception, or a normal return. -/
inductive SessionEnd where
  | connectionClosed
  | wsException
  | osError
  | timeoutError
  | otherError
  | normal
  deriving DecidableEq

/-- The four exception types of the first `except` arm. -/
def isTransportError : SessionEnd → Bool
  | SessionEnd.connectionClosed => true
  | SessionEnd.wsException => true
  | SessionEnd.osError => true
  | SessionEnd.timeoutError => true
  | _ => false

/-- `RECONNECT_DELAY` (seconds). -/
def RECONNECT_DELAY : Nat := 10

/-- The `finally` block of `_connection_loop`: wipe all in-flight state. -/
def clear_inflight (st : MonitorState) : MonitorState :=
  { st with active_calls := [], extension_status := [], channel_map := [],
            call_channels := [], incoming_linkedids := [], call_log_meta := [] }

/-- One iteration of `_connection_loop`: whatever way the session ended, both
`except` arms catch it (so no error propagates — third component), the
`finally` block clears the in-flight state, and while `_running` the loop
sleeps `RECONNECT_DELAY` seconds before reconnecting. -/
def connection_loop_iter (st : MonitorState) (running : Bool)
    (outcome : SessionEnd) : MonitorState × Option Nat × Option SessionEnd :=
  let caught : Option SessionEnd :=
    if isTransportError outcome then none
    else
      match outcome with
      | SessionEnd.normal => none
      | _ => none
  (clear_inflight st, if running then some RECONNECT_DELAY else none, caught)

/-! ### Small preservation lemmas -/

theorem indexChannel_active (ch lid : String) (st : MonitorState) :
    (indexChannel ch lid st).active_calls = st.active_calls := rfl

theorem indexChannel_incoming (ch lid : String) (st : MonitorState) :
    (indexChannel ch lid st).incoming_linkedids = st.incoming_linkedids := rfl

theorem indexChannel_meta (ch lid : String) (st : MonitorState) :
    (indexChannel ch lid st).call_log_meta = st.call_log_meta := rfl

theorem indexChannel_log (ch lid : String) (st : MonitorState) :
    (indexChannel ch lid st).call_log = st.call_log := rfl

theorem indexChannel_hasDb (ch lid : String) (st : MonitorState) :
    (indexChannel ch lid st).hasDb = st.hasDb := rfl

theorem log_inbound_ring_active (st : MonitorState) (lid ext ns : String) :
    (log_inbound_ring st lid ext ns).active_calls = st.active_calls := by
  unfold log_inbound_ring; split <;> rfl

theorem log_inbound_ring_incoming (st : MonitorState) (lid ext ns : String) :
    (log_inbound_ring st lid ext ns).incoming_linkedids = st.incoming_linkedids := by
  unfold log_inbound_ring; split <;> rfl

theorem log_inbound_ring_channel_map (st : MonitorState) (lid ext ns : String) :
    (log_inbound_ring st lid ext ns).channel_map = st.channel_map := by
  unfold log_inbound_ring; split <;> rfl

theorem log_inbound_ring_call_channels (st : MonitorState) (lid ext ns : String) :
    (log_inbound_ring st lid ext ns).call_channels = st.call_channels := by
  unfold log_inbound_ring; split <;> rfl

theorem log_call_answered_active (st : MonitorState) (lid a b c : String) :
    (log_call_answered st lid a b c).active_calls = st.active_calls := by
  unfold log_call_answered; split <;> rfl

theorem log_call_answered_incoming (st : MonitorState) (lid a b c : String) :
    (log_call_answered st lid a b c).incoming_linkedids = st.incoming_linkedids := by
  unfold log_call_answered; split <;> rfl

theorem log_outbound_call_active (st : MonitorState) (lid a b c d : String) :
    (log_outbound_call st lid a b c d).active_calls = st.active_calls := by
  unfold log_outbound_call; split <;> rfl

theorem log_outbound_call_incoming (st : MonitorState) (lid a b c d : String) :
    (log_outbound_call st lid a b c d).incoming_linkedids = st.incoming_linkedids := by
  unfold log_outbound_call; split <;> rfl

theorem finalize_call_log_active (st : MonitorState) (lid : String) (n : Int) :
    (finalize_call_log st lid n).active_calls = st.active_calls := by
  unfold finalize_call_log
  cases aget lid st.call_log_meta with
  | none => rfl
  | some bt? =>
    dsimp only
    split
    · cases bt? with
      | none => rfl
      | some bts =>
        dsimp only
        split
        · rfl
        · cases parseDateTime bts <;> rfl
    · rfl

theorem finalize_call_log_incoming (st : MonitorState) (lid : String) (n : Int) :
    (finalize_call_log st lid n).incoming_linkedids = st.incoming_linkedids := by
  unfold finalize_call_log
  cases aget lid st.call_log_meta with
  | none => rfl
  | some bt? =>
    dsimp only
    split
    · cases bt? with
      | none => rfl
      | some bts =>
        dsimp only
        split
        · rfl
        · cases parseDateTime bts <;> rfl
    · rfl

/-! ### C9 — connection-loop failure recovery -/

/-- C9: for every transport or protocol failure of the WebSocket session
(connection closed, WebSocket error, socket error, read timeout) the
connection loop propagates nothing to its caller, wipes the active calls, the
extension presence, the channel → correlation map, the correlation → channels
map, the inbound-correlation set and the pending call-log metadata (while
keeping the durable call log), and, while not shut down, schedules a retry
after the fixed 10-second back-off. -/
theorem C9_transport_failure_recovery (st : MonitorState) (running : Bool)
    (o : SessionEnd) (h : isTransportError o = true) :
    (connection_loop_iter st running o).2.2 = none ∧
    (connection_loop_iter st running o).1.active_calls = [] ∧
    (connection_loop_iter st running o).1.extension_status = [] ∧
    (connection_loop_iter st running o).1.channel_map = [] ∧
    (connection_loop_iter st running o).1.call_channels = [] ∧
    (connection_loop_iter st running o).1.incoming_linkedids = [] ∧
    (connection_loop_iter st running o).1.call_log_meta = [] ∧
    (connection_loop_iter st running o).1.call_log = st.call_log ∧
    (running = true →
      (connection_loop_iter st running o).2.1 = some RECONNECT_DELAY) := by
  unfold connection_loop_iter clear_inflight
  refine ⟨by simp [h], rfl, rfl, rfl, rfl, rfl, rfl, rfl, ?_⟩
  intro hr
  simp [hr]

theorem C9_transport_failure_recovery_witness :
    isTransportError SessionEnd.connectionClosed = true ∧
    (connection_loop_iter ({} : MonitorState) true
      SessionEnd.connectionClosed).1.active_calls = [] ∧
    (connection_loop_iter ({} : MonitorState) true
      SessionEnd.connectionClosed).2.1 = some RECONNECT_DELAY := by
  have h := C9_transport_failure_recovery ({} : MonitorState) true
    SessionEnd.connectionClosed rfl
  exact ⟨rfl, h.2.1, h.2.2.2.2.2.2.2.2 rfl⟩

/-! ### C5 — batch pre-sort -/

theorem insertStable_keyzero (e : Entry) (h : sortKey e = 0)
    (l : List Entry) : insertStable e l = e :: l := by
  cases l with
  | nil => rfl
  | cons x xs => simp [insertStable, h]

theorem insertStable_skip (e : Entry) (h : sortKey e = 1) :
    ∀ (A B : List Entry), (∀ x ∈ A, sortKey x = 0) →
      insertStable e (A ++ B) = A ++ insertStable e B := by
  intro A
  induction A with
  | nil => intro B _; rfl
  | cons x xs ih =>
    intro B hA
    have hx : sortKey x = 0 := hA x (List.mem_cons_self x xs)
    have hstep : insertStable e (x :: (xs ++ B)) = x :: insertStable e (xs ++ B) := by
      simp [insertStable, h, hx]
    simp only [List.cons_append, hstep,
      ih B (fun y hy => hA y (List.mem_cons_of_mem x hy))]

theorem insertStable_front_ones (e : Entry) (h : sortKey e = 1)
    (B : List Entry) (hB : ∀ x ∈ B, sortKey x = 1) :
    insertStable e B = e :: B := by
  cases B with
  | nil => rfl
  | cons x xs =>
    have hx : sortKey x = 1 := hB x (List.mem_cons_self x xs)
    simp [insertStable, h, hx]

theorem sortEntries_partition (l : List Entry) :
    sortEntries l =
      l.filter (fun e => decide (e.inbound_trunk_name ≠ "")) ++
      l.filter (fun e => decide (e.inbound_trunk_name = "")) := by
  induction l with
  | nil => rfl
  | cons e es ih =>
    rw [sortEntries, ih]
    by_cases h : e.inbound_trunk_name = ""
    · have hk : sortKey e = 1 := by simp [sortKey, h]
      rw [insertStable_skip e hk _ _ ?keys, insertStable_front_ones e hk _ ?keys2]
      case keys =>
        intro x hx
        have h' : x.inbound_trunk_name ≠ "" :=
          of_decide_eq_true (List.mem_filter.mp hx).2
        simp [sortKey, h']
      case keys2 =>
        intro x hx
        have h' : x.inbound_trunk_name = "" :=
          of_decide_eq_true (List.mem_filter.mp hx).2
        simp [sortKey, h']
      simp [List.filter_cons, h]
    · have hk : sortKey e = 0 := by simp [sortKey, h]
      rw [insertStable_keyzero e hk]
      simp [List.filter_cons, h]

/-- C5: every `ActiveCallStatus` batch is reordered exactly once into the
stable trunk-first order — the entries with a non-empty `inbound_trunk_name`
(in their original relative order) followed by the remaining entries (in their
original relative order) — and the handler then processes the entries
sequentially in that derived order. -/
theorem C5_batch_presort (st : MonitorState) (nowStr : String) (nowSec : Int)
    (body : List Entry) :
    sortEntries body =
      body.filter (fun e => decide (e.inbound_trunk_name ≠ "")) ++
      body.filter (fun e => decide (e.inbound_trunk_name = "")) ∧
    handle_active_call_status st nowStr nowSec body =
      process_entries st nowStr nowSec (sortEntries body) :=
  ⟨sortEntries_partition body, rfl⟩

/-! ### C2 — at most one ring notification per call -/

theorem handle_unbridge_addupdate_eq (st : MonitorState) (e : Entry)
    (ns : String) (hstate : e.state = "Ring" ∨ e.state = "Ringing") :
    handle_unbridge_addupdate st e ns =
      unbridge_ring_core
        (if e.channel ≠ "" ∧ unbridgeLinkedid e ≠ "" then
           indexChannel e.channel (unbridgeLinkedid e) st
         else st) e ns := by
  unfold handle_unbridge_addupdate
  rw [if_pos hstate]

theorem idxif_active (c : Prop) [Decidable c] (ch lid : String)
    (st : MonitorState) :
    (if c then indexChannel ch lid st else st).active_calls =
      st.active_calls := by
  split <;> rfl

theorem idxif_incoming (c : Prop) [Decidable c] (ch lid : String)
    (st : MonitorState) :
    (if c then indexChannel ch lid st else st).incoming_linkedids =
      st.incoming_linkedids := by
  split <;> rfl

theorem core_emits_nothing_of_record (s : MonitorState) (e : Entry)
    (ns : String) (r : CallRecord)
    (hr : aget (unbridgeLinkedid e) s.active_calls = some r) :
    (unbridge_ring_core s e ns).2 = [] := by
  unfold unbridge_ring_core
  by_cases ht : e.inbound_trunk_name ≠ ""
  · rw [if_pos ht]
  · rw [if_neg ht]
    by_cases hd : unbridgeLinkedid e = "" ∨
      unbridgeLinkedid e ∉ s.incoming_linkedids
    · rw [if_pos hd]
    · rw [if_neg hd, hr]
      cases r <;> rfl

theorem core_connected_noop (s : MonitorState) (e : Entry) (ns : String)
    (u a b c d f : String)
    (hr : aget (unbridgeLinkedid e) s.active_calls =
      some (CallRecord.connected u a b c d f)) :
    (unbridge_ring_core s e ns).1.active_calls = s.active_calls := by
  unfold unbridge_ring_core
  by_cases ht : e.inbound_trunk_name ≠ ""
  · rw [if_pos ht]
    split <;> rfl
  · rw [if_neg ht]
    by_cases hd : unbridgeLinkedid e = "" ∨
      unbridgeLinkedid e ∉ s.incoming_linkedids
    · rw [if_pos hd]
    · rw [if_neg hd, hr]

theorem core_ringing_growth (s : MonitorState) (e : Entry) (ns : String)
    (u cn cnm cdn : String) (exts : List String)
    (ht : e.inbound_trunk_name = "")
    (hne : unbridgeLinkedid e ≠ "")
    (hin : unbridgeLinkedid e ∈ s.incoming_linkedids)
    (hr : aget (unbridgeLinkedid e) s.active_calls =
      some (CallRecord.ringing u cn cnm cdn exts)) :
    (unbridge_ring_core s e ns).1.active_calls =
      (if e.callernum ≠ "" ∧ e.callernum ∉ exts then
         aupd (unbridgeLinkedid e)
           (CallRecord.ringing u cn cnm cdn (exts ++ [e.callernum]))
           s.active_calls
       else s.active_calls) ∧
    (unbridge_ring_core s e ns).2 = [] := by
  unfold unbridge_ring_core
  rw [if_neg (by simp [ht])]
  rw [if_neg (fun hcontra => hcontra.elim hne (fun h => h hin))]
  rw [hr]
  constructor
  · by_cases hc : e.callernum ≠ "" ∧ e.callernum ∉ exts
    · simp only [if_pos hc]
    · simp only [if_neg hc]
  · rfl

/-- The fresh ringing record built by `_handle_unbridge` for a new call. -/
def ringRecordOf (e : Entry) : CallRecord :=
  CallRecord.ringing (unbridgeLinkedid e) e.connectednum e.connectedname
    e.callernum (if e.callernum ≠ "" then [e.callernum] else [])

theorem core_create (s : MonitorState) (e : Entry) (ns : String)
    (ht : e.inbound_trunk_name = "")
    (hne : unbridgeLinkedid e ≠ "")
    (hin : unbridgeLinkedid e ∈ s.incoming_linkedids)
    (hr : aget (unbridgeLinkedid e) s.active_calls = none) :
    unbridge_ring_core s e ns =
      (log_inbound_ring
        { s with active_calls := aupd (unbridgeLinkedid e) (ringRecordOf e) s.active_calls }
        (unbridgeLinkedid e) e.connectednum ns,
       [Event.call_ring (unbridgeLinkedid e) e.connectednum e.callernum
         e.connectedname]) := by
  unfold unbridge_ring_core
  rw [if_neg (by simp [ht])]
  rw [if_neg (fun hcontra => hcontra.elim hne (fun h => h hin))]
  rw [hr]
  rfl

/-- C2: during the lifetime of a CallRecord exactly one `call_ring` is
emitted — while any record exists for the correlation id a further ring
add/update emits nothing; a connected record is left untouched; a ringing
record only grows its extensions list with a not-yet-present non-empty
`callernum`; and a ring for a fresh inbound correlation id creates the
ringing record and emits exactly one `call_ring`. -/
theorem C2_one_ring_per_call (st : MonitorState) (e : Entry) (nowStr : String)
    (hstate : e.state = "Ring" ∨ e.state = "Ringing") :
    (∀ r, aget (unbridgeLinkedid e) st.active_calls = some r →
      (handle_unbridge_addupdate st e nowStr).2 = []) ∧
    (∀ u a b c d f,
      aget (unbridgeLinkedid e) st.active_calls =
        some (CallRecord.connected u a b c d f) →
      (handle_unbridge_addupdate st e nowStr).1.active_calls =
        st.active_calls) ∧
    (∀ u cn cnm cdn exts,
      e.inbound_trunk_name = "" →
      unbridgeLinkedid e ≠ "" →
      unbridgeLinkedid e ∈ st.incoming_linkedids →
      aget (unbridgeLinkedid e) st.active_calls =
        some (CallRecord.ringing u cn cnm cdn exts) →
      (handle_unbridge_addupdate st e nowStr).1.active_calls =
        (if e.callernum ≠ "" ∧ e.callernum ∉ exts then
           aupd (unbridgeLinkedid e)
             (CallRecord.ringing u cn cnm cdn (exts ++ [e.callernum]))
             st.active_calls
         else st.active_calls)) ∧
    (e.inbound_trunk_name = "" →
      unbridgeLinkedid e ≠ "" →
      unbridgeLinkedid e ∈ st.incoming_linkedids →
      aget (unbridgeLinkedid e) st.active_calls = none →
      (handle_unbridge_addupdate st e nowStr).2 =
        [Event.call_ring (unbridgeLinkedid e) e.connectednum e.callernum
          e.connectedname] ∧
      (handle_unbridge_addupdate st e nowStr).1.active_calls =
        aupd (unbridgeLinkedid e) (ringRecordOf e) st.active_calls) := by
  rw [handle_unbridge_addupdate_eq st e nowStr hstate]
  refine ⟨?_, ?_, ?_, ?_⟩
  · intro r hr
    exact core_emits_nothing_of_record _ e nowStr r
      (by rw [idxif_active]; exact hr)
  · intro u a b c d f hr
    rw [core_connected_noop _ e nowStr u a b c d f
      (by rw [idxif_active]; exact hr)]
    rw [idxif_active]
  · intro u cn cnm cdn exts ht hne hin hr
    rw [(core_ringing_growth _ e nowStr u cn cnm cdn exts ht hne
      (by rw [idxif_incoming]; exact hin)
      (by rw [idxif_active]; exact hr)).1]
    rw [idxif_active]
  · intro ht hne hin hr
    rw [core_create _ e nowStr ht hne
      (by rw [idxif_incoming]; exact hin)
      (by rw [idxif_active]; exact hr)]
    constructor
    · rfl
    · rw [log_inbound_ring_active]
      dsimp only
      rw [idxif_active]

theorem C2_one_ring_per_call_witness :
    aget "L1" ([("L1",
      CallRecord.ringing "L1" "+39012" "MR" "1000" ["1000"])] :
        List (String × CallRecord)) =
      some (CallRecord.ringing "L1" "+39012" "MR" "1000" ["1000"]) ∧
    (handle_unbridge_addupdate
      { active_calls := [("L1", CallRecord.ringing "L1" "+39012" "MR" "1000"
          ["1000"])],
        incoming_linkedids := ["L1"], hasDb := false }
      { chantype := "unbridge", action := "update", state := "Ringing",
        linkedid := some "L1", channel := "chB", callernum := "1001",
        connectednum := "+39012", connectedname := "MR" } "ts").2 = [] ∧
    (handle_unbridge_addupdate
      { active_calls := [("L1", CallRecord.ringing "L1" "+39012" "MR" "1000"
          ["1000"])],
        incoming_linkedids := ["L1"], hasDb := false }
      { chantype := "unbridge", action := "update", state := "Ringing",
        linkedid := some "L1", channel := "chB", callernum := "1001",
        connectednum := "+39012", connectedname := "MR" } "ts").1.active_calls =
      [("L1", CallRecord.ringing "L1" "+39012" "MR" "1000" ["1000", "1001"])] := by
  have h := C2_one_ring_per_call
    { active_calls := [("L1", CallRecord.ringing "L1" "+39012" "MR" "1000"
        ["1000"])],
      incoming_linkedids := ["L1"], hasDb := false }
    { chantype := "unbridge", action := "update", state := "Ringing",
      linkedid := some "L1", channel := "chB", callernum := "1001",
      connectednum := "+39012", connectedname := "MR" } "ts" (Or.inr rfl)
  refine ⟨by decide, ?_, ?_⟩
  · exact h.1 (CallRecord.ringing "L1" "+39012" "MR" "1000" ["1000"]) (by decide)
  · rw [h.2.2.1 "L1" "+39012" "MR" "1000" ["1000"] rfl (by decide) (by decide)
      (by decide)]
    decide

/-! ### C10 — extensions lists hold no empty strings and no duplicates -/

/-- The C10 invariant on an active-calls map: every ringing record's
extensions list contains no empty string and no duplicates. -/
def ringingExtsOk (l : List (String × CallRecord)) : Prop :=
  ∀ p ∈ l, ∀ u cn cnm cdn exts, p.2 = CallRecord.ringing u cn cnm cdn exts →
    "" ∉ exts ∧ exts.Nodup

theorem mem_aupd {α : Type} {p : String × α} {k : String} {v : α} :
    ∀ {l : List (String × α)}, p ∈ aupd k v l → p = (k, v) ∨ p ∈ l := by
  intro l
  induction l with
  | nil =>
    intro hp
    simp only [aupd, List.mem_singleton] at hp
    exact Or.inl hp
  | cons q rest ih =>
    intro hp
    by_cases hq : q.1 = k
    · rw [aupd, if_pos hq] at hp
      rcases List.mem_cons.mp hp with h | h
      · exact Or.inl h
      · exact Or.inr (List.mem_cons_of_mem q h)
    · rw [aupd, if_neg hq] at hp
      rcases List.mem_cons.mp hp with h | h
      · exact Or.inr (h ▸ List.mem_cons_self q rest)
      · rcases ih h with h1 | h1
        · exact Or.inl h1
        · exact Or.inr (List.mem_cons_of_mem q h1)

theorem mem_apop {α : Type} {p : String × α} {k : String} :
    ∀ {l : List (String × α)}, p ∈ apop k l → p ∈ l := by
  intro l
  induction l with
  | nil => intro hp; exact absurd hp (List.not_mem_nil p)
  | cons q rest ih =>
    intro hp
    by_cases hq : q.1 = k
    · rw [apop, if_pos hq] at hp
      exact List.mem_cons_of_mem q (ih hp)
    · rw [apop, if_neg hq] at hp
      rcases List.mem_cons.mp hp with h | h
      · exact h ▸ List.mem_cons_self q rest
      · exact List.mem_cons_of_mem q (ih h)

theorem aget_mem {α : Type} {k : String} {v : α} :
    ∀ {l : List (String × α)}, aget k l = some v → (k, v) ∈ l := by
  intro l
  induction l with
  | nil => intro hp; exact Option.noConfusion hp
  | cons q rest ih =>
    intro hp
    by_cases hq : q.1 = k
    · rw [aget, if_pos hq] at hp
      have hv : q.2 = v := Option.some.inj hp
      have hqv : (k, v) = q := by
        cases q
        simp only [Prod.mk.injEq]
        exact ⟨hq.symm, hv.symm⟩
      exact List.mem_cons.mpr (Or.inl hqv)
    · rw [aget, if_neg hq] at hp
      exact List.mem_cons_of_mem q (ih hp)

theorem ringingExtsOk_aupd {l : List (String × CallRecord)} {k : String}
    {v : CallRecord} (h : ringingExtsOk l)
    (hv : ∀ u cn cnm cdn exts, v = CallRecord.ringing u cn cnm cdn exts →
      "" ∉ exts ∧ exts.Nodup) :
    ringingExtsOk (aupd k v l) := by
  intro p hp
  rcases mem_aupd hp with h1 | h1
  · intro u cn cnm cdn exts he
    exact hv u cn cnm cdn exts (by rw [h1] at he; exact he)
  · exact h p h1

theorem ringingExtsOk_core (s : MonitorState) (e : Entry) (ns : String)
    (h : ringingExtsOk s.active_calls) :
    ringingExtsOk (unbridge_ring_core s e ns).1.active_calls := by
  unfold unbridge_ring_core
  by_cases ht : e.inbound_trunk_name ≠ ""
  · rw [if_pos ht]
    split <;> exact h
  · rw [if_neg ht]
    by_cases hd : unbridgeLinkedid e = "" ∨
      unbridgeLinkedid e ∉ s.incoming_linkedids
    · rw [if_pos hd]
      exact h
    · rw [if_neg hd]
      cases hr : aget (unbridgeLinkedid e) s.active_calls with
      | none =>
        dsimp only
        rw [log_inbound_ring_active]
        apply ringingExtsOk_aupd h
        intro u cn cnm cdn exts he
        cases he
        by_cases hcn : e.callernum ≠ ""
        · rw [if_pos hcn]
          exact ⟨by simp [Ne.symm hcn], List.nodup_singleton _⟩
        · rw [if_neg hcn]
          exact ⟨List.not_mem_nil _, List.nodup_nil⟩
      | some r =>
        cases r with
        | ringing u cn cnm cdn exts =>
          dsimp only
          by_cases hc : e.callernum ≠ "" ∧ e.callernum ∉ exts
          · rw [if_pos hc]
            apply ringingExtsOk_aupd h
            intro u' cn' cnm' cdn' exts' he
            cases he
            have hgood := h _ (aget_mem hr) u cn cnm cdn exts rfl
            constructor
            · intro hmem
              rcases List.mem_append.mp hmem with hm | hm
              · exact hgood.1 hm
              · exact hc.1 (List.mem_singleton.mp hm).symm
            · rw [List.nodup_append]
              exact ⟨hgood.2, List.nodup_singleton _,
                fun a ha hb => hc.2 ((List.mem_singleton.mp hb) ▸ ha)⟩
          · rw [if_neg hc]
            exact h
        | connected u a b c d f => exact h

theorem inv_handle_unbridge_addupdate (st : MonitorState) (e : Entry)
    (ns : String) (h : ringingExtsOk st.active_calls) :
    ringingExtsOk (handle_unbridge_addupdate st e ns).1.active_calls := by
  unfold handle_unbridge_addupdate
  split
  · exact ringingExtsOk_core _ e ns (by rw [idxif_active]; exact h)
  · dsimp only
    rw [idxif_active]
    exact h

theorem inv_removal_finalize (st : MonitorState) (linked : String) (n : Int)
    (h : ringingExtsOk st.active_calls) :
    ringingExtsOk (removal_finalize st linked n).1.active_calls := by
  simp only [removal_finalize]
  split
  · dsimp only
    intro p hp
    have hp2 := mem_apop hp
    rw [finalize_call_log_active] at hp2
    exact h p hp2
  · dsimp only
    rw [finalize_call_log_active]
    exact h

theorem inv_handle_unbridge_delete (st : MonitorState) (e : Entry) (n : Int)
    (h : ringingExtsOk st.active_calls) :
    ringingExtsOk (handle_unbridge_delete st e n).1.active_calls := by
  simp only [handle_unbridge_delete]
  split
  · exact h
  · split
    · exact h
    · split
      · split
        · exact inv_removal_finalize _ _ _ h
        · exact h
      · exact h

theorem foldl_indexChannel_active (lid : String) :
    ∀ (chs : List String) (st : MonitorState),
      (List.foldl (fun s ch => indexChannel ch lid s) st chs).active_calls =
        st.active_calls := by
  intro chs
  induction chs with
  | nil => intro st; rfl
  | cons c cs ih =>
    intro st
    rw [List.foldl_cons, ih]
    exact indexChannel_active c lid st

theorem bridge_index_channels_active (st : MonitorState) (lid : String)
    (e : Entry) :
    (bridge_index_channels st lid e).active_calls = st.active_calls :=
  foldl_indexChannel_active lid (bridgeChannels e) st

theorem bridge_outbound_step_active (st : MonitorState) (lid : String)
    (e : Entry) (ns : String) :
    (bridge_outbound_step st lid e ns).active_calls = st.active_calls := by
  unfold bridge_outbound_step
  split
  · dsimp only
    split
    · rw [log_outbound_call_active]
    · rfl
  · rfl

theorem bridge_answered_step_active (st : MonitorState) (lid : String)
    (e : Entry) :
    (bridge_answered_step st lid e).active_calls = st.active_calls := by
  unfold bridge_answered_step
  split
  · rw [log_call_answered_active]
  · rfl

theorem inv_handle_bridge_addupdate (st : MonitorState) (e : Entry)
    (ns : String) (h : ringingExtsOk st.active_calls) :
    ringingExtsOk (handle_bridge_addupdate st e ns).1.active_calls := by
  simp only [handle_bridge_addupdate]
  split
  · exact h
  · have hact : (bridge_answered_step (bridge_outbound_step
        (bridge_index_channels st (bridgeResolvedId st e) e)
        (bridgeResolvedId st e) e ns) (bridgeResolvedId st e) e).active_calls =
        st.active_calls := by
      rw [bridge_answered_step_active, bridge_outbound_step_active,
        bridge_index_channels_active]
    split
    · rw [hact]; exact h
    · split
      · rw [hact]; exact h
      · apply ringingExtsOk_aupd (by rw [hact]; exact h)
        intro u cn cnm cdn exts he
        exact CallRecord.noConfusion he

theorem inv_handle_bridge_delete (st : MonitorState) (e : Entry) (n : Int)
    (h : ringingExtsOk st.active_calls) :
    ringingExtsOk (handle_bridge_delete st e n).1.active_calls := by
  simp only [handle_bridge_delete]
  split
  · exact h
  · split
    · split
      · exact inv_removal_finalize _ _ _ h
      · exact h
    · exact h

theorem inv_process_entry (st : MonitorState) (ns : String) (n : Int)
    (e : Entry) (h : ringingExtsOk st.active_calls) :
    ringingExtsOk (process_entry st ns n e).1.active_calls := by
  simp only [process_entry]
  split
  · split
    · exact inv_handle_unbridge_addupdate _ _ _ h
    · split
      · exact inv_handle_unbridge_delete _ _ _ h
      · exact h
  · split
    · split
      · exact inv_handle_bridge_addupdate _ _ _ h
      · split
        · exact inv_handle_bridge_delete _ _ _ h
        · exact h
    · exact h

theorem inv_process_entries (ns : String) (n : Int) :
    ∀ (es : List Entry) (st : MonitorState), ringingExtsOk st.active_calls →
      ringingExtsOk (process_entries st ns n es).1.active_calls := by
  intro es
  induction es with
  | nil => intro st h; exact h
  | cons e rest ih =>
    intro st h
    unfold process_entries
    exact ih _ (inv_process_entry st ns n e h)

/-- C10: processing any `ActiveCallStatus` batch preserves the invariant that
every ringing CallRecord's extensions list contains no empty string and no
duplicate — creation from an empty `callernum` yields an empty list, and
ring-group growth appends only a non-empty, not-yet-present extension. -/
theorem C10_extensions_clean (st : MonitorState) (nowStr : String)
    (nowSec : Int) (body : List Entry)
    (h : ∀ p ∈ st.active_calls, ∀ u cn cnm cdn exts,
      p.2 = CallRecord.ringing u cn cnm cdn exts → "" ∉ exts ∧ exts.Nodup) :
    ∀ p ∈ (handle_active_call_status st nowStr nowSec body).1.active_calls,
      ∀ u cn cnm cdn exts, p.2 = CallRecord.ringing u cn cnm cdn exts →
        "" ∉ exts ∧ exts.Nodup :=
  inv_process_entries nowStr nowSec (sortEntries body) st h

theorem C10_extensions_clean_witness :
    (handle_active_call_status ({ incoming_linkedids := ["L1"], hasDb := false })
      "ts" 0
      [{ chantype := "unbridge", action := "add", state := "Ring",
         linkedid := some "L1", channel := "chA", callernum := "",
         connectednum := "+39012" }]).1.active_calls =
      [("L1", CallRecord.ringing "L1" "+39012" "" "" [])] ∧
    ∀ p ∈ (handle_active_call_status
      ({ incoming_linkedids := ["L1"], hasDb := false }) "ts" 0
      [{ chantype := "unbridge", action := "add", state := "Ring",
         linkedid := some "L1", channel := "chA", callernum := "",
         connectednum := "+39012" }]).1.active_calls,
      ∀ u cn cnm cdn exts, p.2 = CallRecord.ringing u cn cnm cdn exts →
        "" ∉ exts ∧ exts.Nodup := by
  constructor
  · decide
  · exact C10_extensions_clean
      ({ incoming_linkedids := ["L1"], hasDb := false }) "ts" 0
      [{ chantype := "unbridge", action := "add", state := "Ring",
         linkedid := some "L1", channel := "chA", callernum := "",
         connectednum := "+39012" }]
      (by intro p hp; exact absurd hp (List.not_mem_nil p))

/-! ### C1 — duplicate bridge events on a connected call -/

theorem foldl_indexChannel_incoming (lid : String) :
    ∀ (chs : List String) (st : MonitorState),
      (List.foldl (fun s ch => indexChannel ch lid s) st chs).incoming_linkedids =
        st.incoming_linkedids := by
  intro chs
  induction chs with
  | nil => intro st; rfl
  | cons c cs ih =>
    intro st
    rw [List.foldl_cons, ih]
    exact indexChannel_incoming c lid st

theorem bridge_index_channels_incoming (st : MonitorState) (lid : String)
    (e : Entry) :
    (bridge_index_channels st lid e).incoming_linkedids =
      st.incoming_linkedids :=
  foldl_indexChannel_incoming lid (bridgeChannels e) st

theorem bridge_outbound_step_incoming (st : MonitorState) (lid : String)
    (e : Entry) (ns : String) :
    (bridge_outbound_step st lid e ns).incoming_linkedids =
      st.incoming_linkedids := by
  unfold bridge_outbound_step
  split
  · dsimp only
    split
    · rw [log_outbound_call_incoming]
    · rfl
  · rfl

theorem bridge_answered_step_incoming (st : MonitorState) (lid : String)
    (e : Entry) :
    (bridge_answered_step st lid e).incoming_linkedids =
      st.incoming_linkedids := by
  unfold bridge_answered_step
  split
  · rw [log_call_answered_incoming]
  · rfl

/-- C1 counterexample: a bridge `update` for a correlation id whose CallRecord
is already connected is *not* a fan-out no-op — `_handle_bridge` checks only
membership in `active_calls`, not the record's state, so it emits
`call_connect` again. -/
theorem C1_duplicate_bridge_counterexample :
    aget "L1"
      ({ active_calls :=
           [("L1", CallRecord.connected "L1" "+39012" "1000" "MR" "RC" "T1")],
         channel_map := [("ch1", "L1"), ("ch2", "L1")],
         call_channels := [("L1", ["ch1", "ch2"])],
         incoming_linkedids := ["L1"], hasDb := false } :
           MonitorState).active_calls =
      some (CallRecord.connected "L1" "+39012" "1000" "MR" "RC" "T1") ∧
    (handle_bridge_addupdate
      { active_calls :=
          [("L1", CallRecord.connected "L1" "+39012" "1000" "MR" "RC" "T1")],
        channel_map := [("ch1", "L1"), ("ch2", "L1")],
        call_channels := [("L1", ["ch1", "ch2"])],
        incoming_linkedids := ["L1"], hasDb := false }
      { chantype := "bridge", action := "update", linkedid := some "L1",
        channel1 := "ch1", channel2 := "ch2", callerid1 := "+39012",
        callerid2 := "1000", name1 := "MR", name2 := "RC",
        bridge_time := "T1" } "now").2 =
      [Event.call_connect "L1" "+39012" "1000" "MR" "RC" "T1"] := by
  constructor
  · decide
  · decide

/-- C1 (amended): for a bridge add/update with a resolvable correlation id,
the replacement of the CallRecord by a connected record and the emission of
`call_connect` happen exactly when the correlation id is in
InboundCorrelationSet and *any* CallRecord — ringing or connected — exists for
it; in particular a duplicate bridge add/update for an already-connected
inbound call re-emits `call_connect` and overwrites the record. -/
theorem C1_bridge_connect_condition (st : MonitorState) (e : Entry)
    (ns : String) (hlid : bridgeResolvedId st e ≠ "") :
    ((handle_bridge_addupdate st e ns).2 ≠ [] ↔
      bridgeResolvedId st e ∈ st.incoming_linkedids ∧
      (aget (bridgeResolvedId st e) st.active_calls).isSome = true) ∧
    (bridgeResolvedId st e ∈ st.incoming_linkedids →
      (aget (bridgeResolvedId st e) st.active_calls).isSome = true →
      (handle_bridge_addupdate st e ns).2 =
        [Event.call_connect (bridgeResolvedId st e) e.callerid1 e.callerid2
          e.name1 e.name2 e.bridge_time] ∧
      (handle_bridge_addupdate st e ns).1.active_calls =
        aupd (bridgeResolvedId st e)
          (CallRecord.connected (bridgeResolvedId st e) e.callerid1
            e.callerid2 e.name1 e.name2 e.bridge_time)
          st.active_calls) := by
  simp only [handle_bridge_addupdate]
  rw [if_neg hlid]
  have h3inc : (bridge_answered_step (bridge_outbound_step
      (bridge_index_channels st (bridgeResolvedId st e) e)
      (bridgeResolvedId st e) e ns)
      (bridgeResolvedId st e) e).incoming_linkedids =
      st.incoming_linkedids := by
    rw [bridge_answered_step_incoming, bridge_outbound_step_incoming,
      bridge_index_channels_incoming]
  have h3act : (bridge_answered_step (bridge_outbound_step
      (bridge_index_channels st (bridgeResolvedId st e) e)
      (bridgeResolvedId st e) e ns)
      (bridgeResolvedId st e) e).active_calls = st.active_calls := by
    rw [bridge_answered_step_active, bridge_outbound_step_active,
      bridge_index_channels_active]
  rw [h3inc, h3act]
  by_cases hin : bridgeResolvedId st e ∈ st.incoming_linkedids
  · rw [if_neg (not_not_intro hin)]
    cases ha : aget (bridgeResolvedId st e) st.active_calls with
    | none =>
      rw [if_pos Option.isNone_none]
      refine ⟨⟨fun hne => absurd rfl hne, ?_⟩, ?_⟩
      · rintro ⟨_, hs⟩
        exact absurd hs (by simp)
      · intro _ hs
        exact absurd hs (by simp)
    | some r =>
      rw [if_neg (by simp)]
      refine ⟨⟨fun _ => ⟨hin, rfl⟩, fun _ => by simp⟩, ?_⟩
      intro _ _
      exact ⟨rfl, rfl⟩
  · rw [if_pos hin]
    refine ⟨⟨fun hne => absurd rfl hne, ?_⟩, ?_⟩
    · rintro ⟨hi, _⟩
      exact absurd hi hin
    · intro hi
      exact absurd hi hin

theorem C1_bridge_connect_condition_witness :
    (handle_bridge_addupdate
      { active_calls :=
          [("L1", CallRecord.connected "L1" "+39012" "1000" "MR" "RC" "T1")],
        channel_map := [("ch1", "L1"), ("ch2", "L1")],
        call_channels := [("L1", ["ch1", "ch2"])],
        incoming_linkedids := ["L1"], hasDb := false }
      { chantype := "bridge", action := "update", linkedid := some "L1",
        channel1 := "ch1", channel2 := "ch2", callerid1 := "+39012",
        callerid2 := "1000", name1 := "MR", name2 := "RC",
        bridge_time := "T1" } "now").2 =
      [Event.call_connect "L1" "+39012" "1000" "MR" "RC" "T1"] ∧
    (handle_bridge_addupdate
      { active_calls :=
          [("L1", CallRecord.connected "L1" "+39012" "1000" "MR" "RC" "T1")],
        channel_map := [("ch1", "L1"), ("ch2", "L1")],
        call_channels := [("L1", ["ch1", "ch2"])],
        incoming_linkedids := ["L1"], hasDb := false }
      { chantype := "bridge", action := "update", linkedid := some "L1",
        channel1 := "ch1", channel2 := "ch2", callerid1 := "+39012",
        callerid2 := "1000", name1 := "MR", name2 := "RC",
        bridge_time := "T1" } "now").1.active_calls =
      [("L1", CallRecord.connected "L1" "+39012" "1000" "MR" "RC" "T1")] := by
  have h := (C1_bridge_connect_condition
    { active_calls :=
        [("L1", CallRecord.connected "L1" "+39012" "1000" "MR" "RC" "T1")],
      channel_map := [("ch1", "L1"), ("ch2", "L1")],
      call_channels := [("L1", ["ch1", "ch2"])],
      incoming_linkedids := ["L1"], hasDb := false }
    { chantype := "bridge", action := "update", linkedid := some "L1",
      channel1 := "ch1", channel2 := "ch2", callerid1 := "+39012",
      callerid2 := "1000", name1 := "MR", name2 := "RC",
      bridge_time := "T1" } "now" (by decide)).2 (by decide) (by decide)
  refine ⟨by rw [h.1]; decide, by rw [h.2]; decide⟩

/-! ### C4 — bridge correlation-id resolution priority -/

/-- The correlation id of a bridge add/update as the claim words it: a
non-empty `linkedid` first; otherwise the first of channel1, channel2,
channel (in that order) found in ChannelIndex; otherwise, only for entries
carrying `outbound_trunk_name`, the uniqueid or the first non-empty of
channel1, channel2, channel; otherwise empty (entry dropped). -/
def specResolvedId (st : MonitorState) (e : Entry) : String :=
  if e.linkedid.getD "" ≠ "" then e.linkedid.getD ""
  else if e.channel1 ≠ "" ∧ (aget e.channel1 st.channel_map).isSome then
    (aget e.channel1 st.channel_map).getD ""
  else if e.channel2 ≠ "" ∧ (aget e.channel2 st.channel_map).isSome then
    (aget e.channel2 st.channel_map).getD ""
  else if e.channel ≠ "" ∧ (aget e.channel st.channel_map).isSome then
    (aget e.channel st.channel_map).getD ""
  else if e.outbound_trunk_name ≠ "" then
    if e.uniqueid ≠ "" then e.uniqueid
    else if e.channel1 ≠ "" then e.channel1
    else if e.channel2 ≠ "" then e.channel2
    else e.channel
  else ""

theorem pyOr_chain (a b c d : String) :
    pyOr a (pyOr b (pyOr c d)) =
      if a ≠ "" then a else if b ≠ "" then b else if c ≠ "" then c else d := by
  unfold pyOr
  by_cases ha : a = "" <;> by_cases hb : b = "" <;> by_cases hc : c = "" <;>
    simp [ha, hb, hc]

/-- C4: for every bridge add/update, the correlation id used by
`_handle_bridge` is resolved exactly in the claimed priority order
(`specResolvedId`), and when that resolution is empty the entry is dropped
with no state change and no fan-out.  The hypothesis states the ChannelIndex
invariant that indexed correlation ids are non-empty (both indexing sites
guard on it). -/
theorem C4_resolution_priority (st : MonitorState) (e : Entry) (ns : String)
    (hvals : ∀ p ∈ st.channel_map, p.2 ≠ "") :
    bridgeResolvedId st e = specResolvedId st e ∧
    (specResolvedId st e = "" → handle_bridge_addupdate st e ns = (st, [])) := by
  have heq : bridgeResolvedId st e = specResolvedId st e := by
    simp only [bridgeResolvedId, resolve_bridge_linkedid, specResolvedId]
    by_cases hl : e.linkedid.getD "" = ""
    · simp only [hl, ne_eq, not_true_eq_false, if_false, not_false_eq_true,
        if_true]
      by_cases h1 : e.channel1 = ""
      · simp only [h1, ne_eq, not_true_eq_false, if_false, false_and]
        by_cases h2 : e.channel2 = ""
        · simp only [h2, ne_eq, not_true_eq_false, if_false, false_and]
          by_cases h0 : e.channel = ""
          · simp [h0, h1, h2, pyOr_chain]
          · simp only [h0, ne_eq, not_false_eq_true, if_true, true_and]
            cases hg : aget e.channel st.channel_map with
            | none => simp [pyOr_chain, h0, h1, h2]
            | some v =>
              have hv := hvals _ (aget_mem hg)
              simp [hv]
        · simp only [h2, ne_eq, not_false_eq_true, if_true, true_and]
          cases hg : aget e.channel2 st.channel_map with
          | none =>
            simp only [Option.isSome_none, and_false, if_false]
            by_cases h0 : e.channel = ""
            · simp [h0, h1, h2, pyOr_chain]
            · simp only [h0, ne_eq, not_false_eq_true, if_true, true_and]
              cases hg0 : aget e.channel st.channel_map with
              | none => simp [pyOr_chain, h0, h1, h2]
              | some v =>
                have hv := hvals _ (aget_mem hg0)
                simp [hv]
          | some v =>
            have hv := hvals _ (aget_mem hg)
            simp [hv]
      · simp only [h1, ne_eq, not_false_eq_true, if_true, true_and]
        cases hg : aget e.channel1 st.channel_map with
        | none =>
          simp only [Option.isSome_none, and_false, if_false]
          by_cases h2 : e.channel2 = ""
          · simp only [h2, ne_eq, not_true_eq_false, if_false, false_and]
            by_cases h0 : e.channel = ""
            · simp [h0, h1, h2, pyOr_chain]
            · simp only [h0, ne_eq, not_false_eq_true, if_true, true_and]
              cases hg0 : aget e.channel st.channel_map with
              | none => simp [pyOr_chain, h0, h1, h2]
              | some v =>
                have hv := hvals _ (aget_mem hg0)
                simp [hv]
          · simp only [h2, ne_eq, not_false_eq_true, if_true, true_and]
            cases hg2 : aget e.channel2 st.channel_map with
            | none =>
              simp only [Option.isSome_none, and_false, if_false]
              by_cases h0 : e.channel = ""
              · simp [h0, h1, h2, pyOr_chain]
              · simp only [h0, ne_eq, not_false_eq_true, if_true, true_and]
                cases hg0 : aget e.channel st.channel_map with
                | none => simp [pyOr_chain, h0, h1, h2]
                | some v =>
                  have hv := hvals _ (aget_mem hg0)
                  simp [hv]
            | some v =>
              have hv := hvals _ (aget_mem hg2)
              simp [hv]
        | some v =>
          have hv := hvals _ (aget_mem hg)
          simp [hv]
    · simp [hl]
  refine ⟨heq, ?_⟩
  intro hz
  simp only [handle_bridge_addupdate]
  rw [if_pos (heq.trans hz)]

theorem C4_resolution_priority_witness :
    bridgeResolvedId { channel_map := [("ch1", "L1")] }
      { chantype := "bridge", action := "add", channel1 := "ch1" } =
      specResolvedId { channel_map := [("ch1", "L1")] }
        { chantype := "bridge", action := "add", channel1 := "ch1" } ∧
    bridgeResolvedId { channel_map := [("ch1", "L1")] }
      { chantype := "bridge", action := "add", channel1 := "ch1" } = "L1" ∧
    handle_bridge_addupdate ({} : MonitorState)
      { chantype := "bridge", action := "add", channel1 := "chX" } "now" =
      (({} : MonitorState), []) := by
  refine ⟨(C4_resolution_priority { channel_map := [("ch1", "L1")] }
    { chantype := "bridge", action := "add", channel1 := "ch1" } "now"
    (by decide)).1, by decide, ?_⟩
  exact (C4_resolution_priority ({} : MonitorState)
    { chantype := "bridge", action := "add", channel1 := "chX" } "now"
    (by intro p hp; exact absurd hp (List.not_mem_nil p))).2 (by decide)

/-! ### C7 — hangup emitted at most once -/

theorem finalize_call_log_meta (st : MonitorState) (lid : String) (n : Int) :
    (finalize_call_log st lid n).call_log_meta = apop lid st.call_log_meta := by
  unfold finalize_call_log
  cases aget lid st.call_log_meta with
  | none => rfl
  | some bt? =>
    dsimp only
    split
    · cases bt? with
      | none => rfl
      | some bts =>
        dsimp only
        split
        · rfl
        · cases parseDateTime bts <;> rfl
    · rfl

theorem finalize_call_log_channel_map (st : MonitorState) (lid : String)
    (n : Int) :
    (finalize_call_log st lid n).channel_map = st.channel_map := by
  unfold finalize_call_log
  cases aget lid st.call_log_meta with
  | none => rfl
  | some bt? =>
    dsimp only
    split
    · cases bt? with
      | none => rfl
      | some bts =>
        dsimp only
        split
        · rfl
        · cases parseDateTime bts <;> rfl
    · rfl

theorem aget_apop_self {α : Type} (k : String) :
    ∀ l : List (String × α), aget k (apop k l) = none := by
  intro l
  induction l with
  | nil => rfl
  | cons q rest ih =>
    by_cases hq : q.1 = k
    · rw [apop, if_pos hq]
      exact ih
    · rw [apop, if_neg hq, aget, if_neg hq]
      exact ih

theorem not_mem_sdisc_self (x : String) :
    ∀ s : List String, x ∉ sdisc x s := by
  intro s
  induction s with
  | nil => exact List.not_mem_nil x
  | cons y rest ih =>
    by_cases hy : y = x
    · rw [sdisc, if_pos hy]
      exact ih
    · rw [sdisc, if_neg hy]
      intro hmem
      rcases List.mem_cons.mp hmem with h | h
      · exact hy h.symm
      · exact ih h

/-- The `call_log` written by `_finalize_call_log` depends only on the
metadata entry of the correlation id, the db handle and the log itself. -/
theorem finalize_call_log_log_congr (A B : MonitorState) (lid : String)
    (n : Int) (hm : aget lid A.call_log_meta = aget lid B.call_log_meta)
    (hl : A.call_log = B.call_log) (hd : A.hasDb = B.hasDb) :
    (finalize_call_log A lid n).call_log =
      (finalize_call_log B lid n).call_log := by
  unfold finalize_call_log
  rw [hm]
  cases aget lid B.call_log_meta with
  | none =>
    dsimp only
    exact hl
  | some bt? =>
    dsimp only
    rw [hd]
    by_cases hdb : B.hasDb
    · rw [if_pos hdb, if_pos hdb]
      cases bt? with
      | none => exact hl
      | some bts =>
        dsimp only
        by_cases hbts : bts = ""
        · rw [if_pos hbts, if_pos hbts]
          exact hl
        · rw [if_neg hbts, if_neg hbts]
          cases parseDateTime bts with
          | none => exact hl
          | some bt =>
            dsimp only
            rw [hl]
    · rw [if_neg hdb, if_neg hdb]
      exact hl

theorem removal_finalize_events (st : MonitorState) (lid : String) (n : Int) :
    (removal_finalize st lid n).2 =
      (if (aget lid st.active_calls).isSome = true then [Event.call_hangup lid]
       else []) := by
  have hact : (finalize_call_log
      { st with call_channels := apop lid st.call_channels,
                incoming_linkedids := sdisc lid st.incoming_linkedids }
      lid n).active_calls = st.active_calls := finalize_call_log_active _ lid n
  simp only [removal_finalize]
  rw [hact]
  cases ha : aget lid st.active_calls <;> simp

theorem removal_finalize_active (st : MonitorState) (lid : String) (n : Int) :
    (removal_finalize st lid n).1.active_calls =
      (if (aget lid st.active_calls).isSome = true then
         apop lid st.active_calls
       else st.active_calls) := by
  have hact : (finalize_call_log
      { st with call_channels := apop lid st.call_channels,
                incoming_linkedids := sdisc lid st.incoming_linkedids }
      lid n).active_calls = st.active_calls := finalize_call_log_active _ lid n
  simp only [removal_finalize]
  rw [hact]
  cases ha : aget lid st.active_calls with
  | none =>
    dsimp only
    rw [hact]
    simp
  | some r =>
    dsimp only
    simp

theorem removal_finalize_incoming (st : MonitorState) (lid : String) (n : Int) :
    (removal_finalize st lid n).1.incoming_linkedids =
      sdisc lid st.incoming_linkedids := by
  have hact : (finalize_call_log
      { st with call_channels := apop lid st.call_channels,
                incoming_linkedids := sdisc lid st.incoming_linkedids }
      lid n).active_calls = st.active_calls := finalize_call_log_active _ lid n
  have hinc : (finalize_call_log
      { st with call_channels := apop lid st.call_channels,
                incoming_linkedids := sdisc lid st.incoming_linkedids }
      lid n).incoming_linkedids = sdisc lid st.incoming_linkedids :=
    finalize_call_log_incoming _ lid n
  simp only [removal_finalize]
  rw [hact]
  cases ha : aget lid st.active_calls with
  | none =>
    dsimp only
    exact hinc
  | some r =>
    dsimp only
    exact hinc

theorem removal_finalize_meta (st : MonitorState) (lid : String) (n : Int) :
    (removal_finalize st lid n).1.call_log_meta = apop lid st.call_log_meta := by
  have hact : (finalize_call_log
      { st with call_channels := apop lid st.call_channels,
                incoming_linkedids := sdisc lid st.incoming_linkedids }
      lid n).active_calls = st.active_calls := finalize_call_log_active _ lid n
  have hmeta : (finalize_call_log
      { st with call_channels := apop lid st.call_channels,
                incoming_linkedids := sdisc lid st.incoming_linkedids }
      lid n).call_log_meta = apop lid st.call_log_meta :=
    finalize_call_log_meta _ lid n
  simp only [removal_finalize]
  rw [hact]
  cases ha : aget lid st.active_calls with
  | none =>
    dsimp only
    exact hmeta
  | some r =>
    dsimp only
    exact hmeta

theorem removal_finalize_log (st : MonitorState) (lid : String) (n : Int) :
    (removal_finalize st lid n).1.call_log =
      (finalize_call_log st lid n).call_log := by
  have hact : (finalize_call_log
      { st with call_channels := apop lid st.call_channels,
                incoming_linkedids := sdisc lid st.incoming_linkedids }
      lid n).active_calls = st.active_calls := finalize_call_log_active _ lid n
  have hlog : (finalize_call_log
      { st with call_channels := apop lid st.call_channels,
                incoming_linkedids := sdisc lid st.incoming_linkedids }
      lid n).call_log = (finalize_call_log st lid n).call_log :=
    finalize_call_log_log_congr _ _ lid n rfl rfl rfl
  simp only [removal_finalize]
  rw [hact]
  cases ha : aget lid st.active_calls with
  | none =>
    dsimp only
    exact hlog
  | some r =>
    dsimp only
    exact hlog

theorem removal_finalize_channel_map (st : MonitorState) (lid : String)
    (n : Int) :
    (removal_finalize st lid n).1.channel_map = st.channel_map := by
  have hact : (finalize_call_log
      { st with call_channels := apop lid st.call_channels,
                incoming_linkedids := sdisc lid st.incoming_linkedids }
      lid n).active_calls = st.active_calls := finalize_call_log_active _ lid n
  have hchm : (finalize_call_log
      { st with call_channels := apop lid st.call_channels,
                incoming_linkedids := sdisc lid st.incoming_linkedids }
      lid n).channel_map = st.channel_map :=
    finalize_call_log_channel_map _ lid n
  simp only [removal_finalize]
  rw [hact]
  cases ha : aget lid st.active_calls with
  | none =>
    dsimp only
    exact hchm
  | some r =>
    dsimp only
    exact hchm

/-- C7: `call_hangup` is never emitted twice for a correlation id — an
unbridge delete emits it exactly when the channel was indexed, resolving to a
non-empty correlation id whose channel set becomes empty, and an active
CallRecord existed; that same step removes the record, discards the inbound
mark, drops the metadata and finalizes the call-history duration, after which
re-processing the same delete is a no-op; a delete whose channel is unknown to
ChannelIndex changes no state and emits nothing. -/
theorem C7_hangup_at_most_once (st : MonitorState) (e : Entry) (n : Int) :
    ((e.channel = "" ∨ aget e.channel st.channel_map = none) →
      handle_unbridge_delete st e n = (st, [])) ∧
    ((handle_unbridge_delete st e n).2 ≠ [] ↔
      (∃ lid, e.channel ≠ "" ∧ aget e.channel st.channel_map = some lid ∧
        lid ≠ "" ∧ sdisc e.channel ((aget lid st.call_channels).getD []) = [] ∧
        (aget lid st.active_calls).isSome = true)) ∧
    (∀ lid, e.channel ≠ "" → aget e.channel st.channel_map = some lid →
      lid ≠ "" → sdisc e.channel ((aget lid st.call_channels).getD []) = [] →
      (aget lid st.active_calls).isSome = true →
      (handle_unbridge_delete st e n).2 = [Event.call_hangup lid] ∧
      aget lid (handle_unbridge_delete st e n).1.active_calls = none ∧
      lid ∉ (handle_unbridge_delete st e n).1.incoming_linkedids ∧
      (handle_unbridge_delete st e n).1.call_log_meta =
        apop lid st.call_log_meta ∧
      (handle_unbridge_delete st e n).1.call_log =
        (finalize_call_log st lid n).call_log ∧
      (handle_unbridge_delete (handle_unbridge_delete st e n).1 e n).2 = []) := by
  have hnone : ∀ s : MonitorState,
      (e.channel = "" ∨ aget e.channel s.channel_map = none) →
      handle_unbridge_delete s e n = (s, []) := by
    intro s hs
    simp only [handle_unbridge_delete]
    by_cases hch : e.channel = ""
    · rw [if_pos hch]
    · rcases hs with hs | hs
      · exact absurd hs hch
      · rw [if_neg hch, hs]
  have hbranch : ∀ lid, e.channel ≠ "" →
      aget e.channel st.channel_map = some lid → lid ≠ "" →
      sdisc e.channel ((aget lid st.call_channels).getD []) = [] →
      handle_unbridge_delete st e n =
        removal_finalize { st with channel_map := apop e.channel st.channel_map }
          lid n := by
    intro lid hch hg hl he
    simp only [handle_unbridge_delete]
    rw [if_neg hch, hg]
    dsimp only
    rw [if_pos hl, if_pos he]
  refine ⟨hnone st, ?_, ?_⟩
  · constructor
    · intro hne
      by_cases hch : e.channel = ""
      · exact absurd (by rw [hnone st (Or.inl hch)]) hne
      · cases hg : aget e.channel st.channel_map with
        | none => exact absurd (by rw [hnone st (Or.inr hg)]) hne
        | some lid =>
          by_cases hl : lid = ""
          · refine absurd ?_ hne
            simp only [handle_unbridge_delete]
            rw [if_neg hch, hg]
            dsimp only
            rw [if_neg (fun hcon => hcon hl)]
          · by_cases hemp :
              sdisc e.channel ((aget lid st.call_channels).getD []) = []
            · rw [hbranch lid hch hg hl hemp, removal_finalize_events] at hne
              dsimp only at hne
              by_cases hsome : (aget lid st.active_calls).isSome = true
              · exact ⟨lid, hch, rfl, hl, hemp, hsome⟩
              · rw [if_neg hsome] at hne
                exact absurd rfl hne
            · refine absurd ?_ hne
              simp only [handle_unbridge_delete]
              rw [if_neg hch, hg]
              dsimp only
              rw [if_pos hl, if_neg hemp]
    · rintro ⟨lid, hch, hg, hl, hemp, hsome⟩
      rw [hbranch lid hch hg hl hemp, removal_finalize_events]
      dsimp only
      rw [if_pos hsome]
      exact List.cons_ne_nil _ _
  · intro lid hch hg hl hemp hsome
    have hb := hbranch lid hch hg hl hemp
    have hcm : (handle_unbridge_delete st e n).1.channel_map =
        apop e.channel st.channel_map := by
      rw [hb, removal_finalize_channel_map]
    refine ⟨?_, ?_, ?_, ?_, ?_, ?_⟩
    · rw [hb, removal_finalize_events]
      dsimp only
      rw [if_pos hsome]
    · rw [hb, removal_finalize_active]
      dsimp only
      rw [if_pos hsome]
      exact aget_apop_self lid st.active_calls
    · rw [hb, removal_finalize_incoming]
      exact not_mem_sdisc_self lid st.incoming_linkedids
    · rw [hb, removal_finalize_meta]
    · rw [hb, removal_finalize_log]
      exact finalize_call_log_log_congr _ _ lid n rfl rfl rfl
    · rw [hnone (handle_unbridge_delete st e n).1
        (Or.inr (by rw [hcm]; exact aget_apop_self e.channel st.channel_map))]

theorem C7_hangup_at_most_once_witness :
    (handle_unbridge_delete
      { active_calls := [("L1", CallRecord.ringing "L1" "+39012" "MR" "1000"
          ["1000"])],
        channel_map := [("chA", "L1")], call_channels := [("L1", ["chA"])],
        incoming_linkedids := ["L1"], hasDb := false }
      { chantype := "unbridge", action := "delete", channel := "chA" } 0).2 =
      [Event.call_hangup "L1"] ∧
    (handle_unbridge_delete
      (handle_unbridge_delete
        { active_calls := [("L1", CallRecord.ringing "L1" "+39012" "MR" "1000"
            ["1000"])],
          channel_map := [("chA", "L1")], call_channels := [("L1", ["chA"])],
          incoming_linkedids := ["L1"], hasDb := false }
        { chantype := "unbridge", action := "delete", channel := "chA" } 0).1
      { chantype := "unbridge", action := "delete", channel := "chA" } 0).2 =
      [] ∧
    handle_unbridge_delete
      { active_calls := [("L1", CallRecord.ringing "L1" "+39012" "MR" "1000"
          ["1000"])],
        channel_map := [("chA", "L1")], call_channels := [("L1", ["chA"])],
        incoming_linkedids := ["L1"], hasDb := false }
      { chantype := "unbridge", action := "delete", channel := "chZ" } 0 =
      ({ active_calls := [("L1", CallRecord.ringing "L1" "+39012" "MR" "1000"
           ["1000"])],
         channel_map := [("chA", "L1")], call_channels := [("L1", ["chA"])],
         incoming_linkedids := ["L1"], hasDb := false }, []) := by
  have h := (C7_hangup_at_most_once
    { active_calls := [("L1", CallRecord.ringing "L1" "+39012" "MR" "1000"
        ["1000"])],
      channel_map := [("chA", "L1")], call_channels := [("L1", ["chA"])],
      incoming_linkedids := ["L1"], hasDb := false }
    { chantype := "unbridge", action := "delete", channel := "chA" } 0).2.2
    "L1" (by decide) (by decide) (by decide) (by decide) (by decide)
  have h2 := (C7_hangup_at_most_once
    { active_calls := [("L1", CallRecord.ringing "L1" "+39012" "MR" "1000"
        ["1000"])],
      channel_map := [("chA", "L1")], call_channels := [("L1", ["chA"])],
      incoming_linkedids := ["L1"], hasDb := false }
    { chantype := "unbridge", action := "delete", channel := "chZ" } 0).1
    (Or.inr (by decide))
  exact ⟨h.1, h.2.2.2.2.2, h2⟩

/-! ### C6 — duration finalization -/

/-- C6: `_finalize_call_log` first drops the per-call metadata; with no
metadata it performs no database write; with an unset (`None` or empty)
bridge time it performs no write, and an inbound row is inserted with
`answered = 0` and `duration = 0`, so a never-answered call keeps those
values; with a parseable bridge time it writes
`duration = max 0 (now - bridge_time)` whole seconds, a non-negative
integer, into every row of that correlation id. -/
theorem C6_finalize_duration (st : MonitorState) (lid : String) (nowSec : Int) :
    ((finalize_call_log st lid nowSec).call_log_meta = apop lid st.call_log_meta) ∧
    (aget lid st.call_log_meta = none →
      (finalize_call_log st lid nowSec).call_log = st.call_log) ∧
    (∀ bt?, aget lid st.call_log_meta = some bt? → bt? = none ∨ bt? = some "" →
      (finalize_call_log st lid nowSec).call_log = st.call_log) ∧
    (∀ bts t, aget lid st.call_log_meta = some (some bts) →
      parseDateTime bts = some t → st.hasDb = true →
      (finalize_call_log st lid nowSec).call_log =
        st.call_log.map (fun r =>
          if r.linkedid = lid then
            { r with duration := max 0 (nowSec - (t : Int)) }
          else r) ∧
      (0 : Int) ≤ max 0 (nowSec - (t : Int))) ∧
    (∀ ext ns, st.hasDb = true →
      (log_inbound_ring st lid ext ns).call_log =
        st.call_log ++
          [{ timestamp := ns, direction := "inbound", external_number := ext,
             internal_ext := "", internal_name := "", answered := 0,
             duration := 0, linkedid := lid }]) := by
  refine ⟨?_, ?_, ?_, ?_, ?_⟩
  · unfold finalize_call_log
    cases aget lid st.call_log_meta with
    | none => rfl
    | some bt? =>
      dsimp only
      split
      · cases bt? with
        | none => rfl
        | some bts =>
          dsimp only
          split
          · rfl
          · cases parseDateTime bts <;> rfl
      · rfl
  · intro h
    unfold finalize_call_log
    rw [h]
  · intro bt? h hd
    unfold finalize_call_log
    rw [h]
    dsimp only
    split
    · rcases hd with hd | hd <;> subst hd
      · rfl
      · rfl
    · rfl
  · intro bts t h hp hdb
    unfold finalize_call_log
    rw [h]
    dsimp only
    rw [if_pos hdb]
    have hne : bts ≠ "" := by
      intro hbts
      rw [hbts] at hp
      exact Option.noConfusion hp
    rw [if_neg hne, hp]
    exact ⟨rfl, le_max_left 0 _⟩
  · intro ext ns hdb
    unfold log_inbound_ring
    rw [if_pos hdb]

/-! ### C3 — internal and outbound rings produce nothing -/

/-- C3: an unbridge add/update in state Ring/Ringing whose correlation id is
not in the inbound set and that carries no `inbound_trunk_name` stops after
channel indexing: no call record, no fan-out event, no call-log row and no
metadata; the channel → correlation mapping is still recorded exactly when
both the channel and the correlation id are non-empty. -/
theorem C3_nonincoming_ring_noop (st : MonitorState) (e : Entry)
    (nowStr : String)
    (hstate : e.state = "Ring" ∨ e.state = "Ringing")
    (htrunk : e.inbound_trunk_name = "")
    (hinc : unbridgeLinkedid e ∉ st.incoming_linkedids) :
    (handle_unbridge_addupdate st e nowStr).2 = [] ∧
    (handle_unbridge_addupdate st e nowStr).1.active_calls = st.active_calls ∧
    (handle_unbridge_addupdate st e nowStr).1.incoming_linkedids =
      st.incoming_linkedids ∧
    (handle_unbridge_addupdate st e nowStr).1.call_log = st.call_log ∧
    (handle_unbridge_addupdate st e nowStr).1.call_log_meta = st.call_log_meta ∧
    (handle_unbridge_addupdate st e nowStr).1.channel_map =
      (if e.channel ≠ "" ∧ unbridgeLinkedid e ≠ "" then
         aupd e.channel (unbridgeLinkedid e) st.channel_map
       else st.channel_map) ∧
    (handle_unbridge_addupdate st e nowStr).1.call_channels =
      (if e.channel ≠ "" ∧ unbridgeLinkedid e ≠ "" then
         aupd (unbridgeLinkedid e)
           (sadd e.channel ((aget (unbridgeLinkedid e) st.call_channels).getD []))
           st.call_channels
       else st.call_channels) := by
  have hcore : ∀ s : MonitorState,
      s.incoming_linkedids = st.incoming_linkedids →
      unbridge_ring_core s e nowStr = (s, []) := by
    intro s hs
    unfold unbridge_ring_core
    rw [if_neg (by simp [htrunk])]
    rw [if_pos (Or.inr (by rw [hs]; exact hinc))]
  unfold handle_unbridge_addupdate
  rw [if_pos hstate]
  by_cases hc : e.channel ≠ "" ∧ unbridgeLinkedid e ≠ ""
  · rw [if_pos hc, hcore _ (indexChannel_incoming _ _ _)]
    exact ⟨rfl, indexChannel_active _ _ _, indexChannel_incoming _ _ _,
      indexChannel_log _ _ _, indexChannel_meta _ _ _,
      by rw [if_pos hc]; rfl, by rw [if_pos hc]; rfl⟩
  · rw [if_neg hc, hcore st rfl]
    exact ⟨rfl, rfl, rfl, rfl, rfl, by rw [if_neg hc], by rw [if_neg hc]⟩

theorem C3_nonincoming_ring_noop_witness :
    ("L9" : String) ∉ ([] : List String) ∧
    (handle_unbridge_addupdate ({} : MonitorState)
      { chantype := "unbridge", action := "add", state := "Ring",
        linkedid := some "L9", channel := "chA", callernum := "1000",
        connectednum := "+39012" } "ts").2 = [] ∧
    (handle_unbridge_addupdate ({} : MonitorState)
      { chantype := "unbridge", action := "add", state := "Ring",
        linkedid := some "L9", channel := "chA", callernum := "1000",
        connectednum := "+39012" } "ts").1.channel_map = [("chA", "L9")] := by
  have h := C3_nonincoming_ring_noop ({} : MonitorState)
    { chantype := "unbridge", action := "add", state := "Ring",
      linkedid := some "L9", channel := "chA", callernum := "1000",
      connectednum := "+39012" } "ts" (Or.inl rfl) rfl (by decide)
  refine ⟨by decide, h.1, ?_⟩
  rw [h.2.2.2.2.2.1]
  decide

theorem C6_finalize_duration_witness :
    aget "L1" [("L1", some "2024-03-01 10:00:05")] = some (some "2024-03-01 10:00:05") ∧
    parseDateTime "2024-03-01 10:00:05" = some (toSecs 2024 3 1 10 0 5) ∧
    (finalize_call_log
      { call_log_meta := [("L1", some "2024-03-01 10:00:05")],
        call_log := [{ timestamp := "2024-03-01 10:00:00",
                       direction := "inbound", external_number := "+39012",
                       linkedid := "L1" }],
        hasDb := true }
      "L1" ((toSecs 2024 3 1 10 0 5 : Int) + 42)).call_log =
      [{ timestamp := "2024-03-01 10:00:00", direction := "inbound",
         external_number := "+39012", duration := 42, linkedid := "L1" }] := by
  have h := (C6_finalize_duration
    { call_log_meta := [("L1", some "2024-03-01 10:00:05")],
      call_log := [{ timestamp := "2024-03-01 10:00:00",
                     direction := "inbound", external_number := "+39012",
                     linkedid := "L1" }],
      hasDb := true }
    "L1" ((toSecs 2024 3 1 10 0 5 : Int) + 42)).2.2.2.1
    "2024-03-01 10:00:05" (toSecs 2024 3 1 10 0 5) (by decide) (by decide) rfl
  refine ⟨by decide, by decide, ?_⟩
  rw [h.1]
  decide

end PbxMonitor

namespace UcmClient

/-!
Shallow embedding of `ucm_client.py` (click-to-dial).  HTTP requests are
effectful, so the server is modelled as an oracle: a list of outcomes
consumed one per `_request` call.  Each client method returns the value (or
the raised `UCMError`, as an `Except`), the new cached-cookie state, the
remaining oracle, and the trace of requests it sent, in order.
-/

/-- A request payload sent by `_request` (the fields the client fills in). -/
inductive Req where
  | challenge (user : String)
  | login (user token : String)
  | dialOutbound (cookie caller outbound : String)
  deriving DecidableEq

/-- The parts of a decoded successful JSON response the client reads. -/
structure Resp where
  challenge : Option String := none
  cookie : Option String := none
  deriving DecidableEq

/-- The outcome of one `_request` call: a decoded response, or the `UCMError`
it raises (connection failure or non-zero status). -/
abbrev Outcome := Except String Resp

/-- The cached session cookie and the time it was obtained. -/
structure UCMState where
  cookie : Option String := none
  cookie_time : Int := 0
  deriving DecidableEq

/-- `SESSION_TIMEOUT` (seconds): 4.5 minutes. -/
def SESSION_TIMEOUT : Int := 270

/-- Result of running a client method against the oracle. -/
structure RunRes (α : Type) where
  val : Except String α
  st : UCMState
  world : List Outcome
  sent : List Req

/-- `_request`: send the payload, consume the next oracle outcome (an
exhausted oracle behaves as a connection error). -/
def ucm_request (st : UCMState) (w : List Outcome) (r : Req) : RunRes Resp :=
  match w with
  | [] => ⟨Except.error "Errore di connessione al centralino", st, [], [r]⟩
  | o :: rest => ⟨o, st, rest, [r]⟩

/-- `_authenticate`: challenge, then login with `md5(challenge + password)`;
on success cache the cookie with the current time.  A missing or falsy
challenge or cookie raises. -/
def ucm_authenticate (user password : String) (md5 : String → String)
    (now : Int) (st : UCMState) (w : List Outcome) : RunRes Unit :=
  let r1 := ucm_request st w (Req.challenge user)
  match r1.val with
  | Except.error e => ⟨Except.error e, r1.st, r1.world, r1.sent⟩
  | Except.ok resp =>
    match resp.challenge with
    | none =>
      ⟨Except.error "Il centralino non ha restituito un challenge valido",
        r1.st, r1.world, r1.sent⟩
    | some ch =>
      if ch = "" then
        ⟨Except.error "Il centralino non ha restituito un challenge valido",
          r1.st, r1.world, r1.sent⟩
      else
        let token := md5 (ch ++ password)
        let r2 := ucm_request r1.st r1.world (Req.login user token)
        match r2.val with
        | Except.error e => ⟨Except.error e, r2.st, r2.world, r1.sent ++ r2.sent⟩
        | Except.ok resp2 =>
          match resp2.cookie with
          | none =>
            ⟨Except.error "Autenticazione fallita: nessun cookie ricevuto",
              r2.st, r2.world, r1.sent ++ r2.sent⟩
          | some ck =>
            if ck = "" then
              ⟨Except.error "Autenticazione fallita: nessun cookie ricevuto",
                r2.st, r2.world, r1.sent ++ r2.sent⟩
            else
              ⟨Except.ok (), { cookie := some ck, cookie_time := now },
                r2.world, r1.sent ++ r2.sent⟩

/-- `_get_cookie`: reuse the cached cookie while truthy and younger than
`SESSION_TIMEOUT`, otherwise authenticate and return the fresh cookie. -/
def ucm_get_cookie (user password : String) (md5 : String → String)
    (now : Int) (st : UCMState) (w : List Outcome) : RunRes String :=
  if st.cookie.getD "" ≠ "" ∧ now - st.cookie_time < SESSION_TIMEOUT then
    ⟨Except.ok (st.cookie.getD ""), st, w, []⟩
  else
    let r := ucm_authenticate user password md5 now st w
    match r.val with
    | Except.error e => ⟨Except.error e, r.st, r.world, r.sent⟩
    | Except.ok _ => ⟨Except.ok (r.st.cookie.getD ""), r.st, r.world, r.sent⟩

/-- `dial_outbound`: get a cookie, send the dial request; on any `UCMError`
drop the cached cookie, get a fresh one (forcing a new challenge/login) and
retry the dial exactly once. -/
def ucm_dial_outbound (user password : String) (md5 : String → String)
    (now : Int) (st : UCMState) (w : List Outcome)
    (extension external_number : String) : RunRes Unit :=
  let rc := ucm_get_cookie user password md5 now st w
  match rc.val with
  | Except.error e => ⟨Except.error e, rc.st, rc.world, rc.sent⟩
  | Except.ok cookie =>
    let rd := ucm_request rc.st rc.world
      (Req.dialOutbound cookie extension external_number)
    match rd.val with
    | Except.ok _ => ⟨Except.ok (), rd.st, rd.world, rc.sent ++ rd.sent⟩
    | Except.error _ =>
      let st2 : UCMState := { rd.st with cookie := none }
      let rc2 := ucm_get_cookie user password md5 now st2 rd.world
      match rc2.val with
      | Except.error e =>
        ⟨Except.error e, rc2.st, rc2.world, rc.sent ++ rd.sent ++ rc2.sent⟩
      | Except.ok cookie2 =>
        let rd2 := ucm_request rc2.st rc2.world
          (Req.dialOutbound cookie2 extension external_number)
        match rd2.val with
        | Except.ok _ =>
          ⟨Except.ok (), rd2.st, rd2.world, rc.sent ++ rd.sent ++ rc2.sent ++ rd2.sent⟩
        | Except.error e =>
          ⟨Except.error e, rd2.st, rd2.world, rc.sent ++ rd.sent ++ rc2.sent ++ rd2.sent⟩

/-- Recognize a `dialOutbound` request in a trace. -/
def isDialReq : Req → Bool
  | Req.dialOutbound _ _ _ => true
  | _ => false

/-- Number of `dialOutbound` requests in a trace. -/
def countDials (l : List Req) : Nat := (l.filter isDialReq).length

theorem countDials_append (a b : List Req) :
    countDials (a ++ b) = countDials a + countDials b := by
  simp [countDials, List.filter_append]

theorem ucm_request_sent (st : UCMState) (w : List Outcome) (r : Req) :
    (ucm_request st w r).sent = [r] := by
  cases w <;> rfl

theorem countDials_auth (user password : String) (md5 : String → String)
    (now : Int) (st : UCMState) (w : List Outcome) :
    countDials (ucm_authenticate user password md5 now st w).sent = 0 := by
  simp only [ucm_authenticate, ucm_request]
  cases w with
  | nil => rfl
  | cons o rest =>
    dsimp only
    cases o with
    | error e => rfl
    | ok resp =>
      dsimp only
      cases resp.challenge with
      | none => rfl
      | some ch =>
        dsimp only
        split
        · rfl
        · cases rest with
          | nil => rfl
          | cons o2 rest2 =>
            dsimp only
            cases o2 with
            | error e2 => rfl
            | ok resp2 =>
              dsimp only
              cases resp2.cookie with
              | none => rfl
              | some ck =>
                dsimp only
                split
                · rfl
                · rfl

theorem auth_sent_head (user password : String) (md5 : String → String)
    (now : Int) (st : UCMState) (w : List Outcome) :
    (ucm_authenticate user password md5 now st w).sent.head? =
      some (Req.challenge user) := by
  simp only [ucm_authenticate, ucm_request]
  cases w with
  | nil => rfl
  | cons o rest =>
    dsimp only
    cases o with
    | error e => rfl
    | ok resp =>
      dsimp only
      cases resp.challenge with
      | none => rfl
      | some ch =>
        dsimp only
        split
        · rfl
        · cases rest with
          | nil => rfl
          | cons o2 rest2 =>
            dsimp only
            cases o2 with
            | error e2 => rfl
            | ok resp2 =>
              dsimp only
              cases resp2.cookie with
              | none => rfl
              | some ck =>
                dsimp only
                split
                · rfl
                · rfl

theorem countDials_get_cookie (user password : String) (md5 : String → String)
    (now : Int) (st : UCMState) (w : List Outcome) :
    countDials (ucm_get_cookie user password md5 now st w).sent = 0 := by
  simp only [ucm_get_cookie]
  split
  · rfl
  · split
    · exact countDials_auth user password md5 now st w
    · exact countDials_auth user password md5 now st w

theorem get_cookie_reauth_head (user password : String) (md5 : String → String)
    (now : Int) (st : UCMState) (w : List Outcome)
    (h : st.cookie.getD "" = "" ∨ ¬ now - st.cookie_time < SESSION_TIMEOUT) :
    (ucm_get_cookie user password md5 now st w).sent.head? =
      some (Req.challenge user) := by
  simp only [ucm_get_cookie]
  rw [if_neg (fun hc => h.elim (fun he => hc.1 he) (fun hf => hf hc.2))]
  split
  · exact auth_sent_head user password md5 now st w
  · exact auth_sent_head user password md5 now st w

theorem head_mem {α : Type} {l : List α} {a : α} (h : l.head? = some a) :
    a ∈ l := by
  cases l with
  | nil => exact Option.noConfusion h
  | cons x t =>
    rw [List.head?_cons] at h
    rw [← Option.some.inj h]
    exact List.mem_cons_self x t

/-- C8: `_get_cookie` reuses the cached cookie exactly when it is truthy and
younger than `SESSION_TIMEOUT = 270` seconds, re-authenticating (starting
with a fresh challenge) otherwise; and `dial_outbound` sends at most two
`dialOutbound` requests — when it sends two, the second is preceded by a
fresh challenge/login forced by invalidating the cached cookie. -/
theorem C8_dial_cookie_retry (user password : String) (md5 : String → String)
    (now : Int) (st : UCMState) (w : List Outcome) (ext num : String) :
    (st.cookie.getD "" ≠ "" → now - st.cookie_time < SESSION_TIMEOUT →
      ucm_get_cookie user password md5 now st w =
        ⟨Except.ok (st.cookie.getD ""), st, w, []⟩) ∧
    ((st.cookie.getD "" = "" ∨ ¬ now - st.cookie_time < SESSION_TIMEOUT) →
      (ucm_get_cookie user password md5 now st w).sent.head? =
        some (Req.challenge user)) ∧
    countDials (ucm_dial_outbound user password md5 now st w ext num).sent ≤ 2 ∧
    (countDials (ucm_dial_outbound user password md5 now st w ext num).sent = 2 →
      Req.challenge user ∈
        (ucm_dial_outbound user password md5 now st w ext num).sent) := by
  refine ⟨?_, get_cookie_reauth_head user password md5 now st w, ?_, ?_⟩
  · intro h1 h2
    simp only [ucm_get_cookie]
    rw [if_pos ⟨h1, h2⟩]
  · simp only [ucm_dial_outbound]
    split
    · rw [countDials_get_cookie]
      simp
    · split
      · rw [countDials_append, countDials_get_cookie, ucm_request_sent]
        simp [countDials, isDialReq]
      · split
        · rw [countDials_append, countDials_append, countDials_get_cookie,
            ucm_request_sent, countDials_get_cookie]
          simp [countDials, isDialReq]
        · split
          · rw [countDials_append, countDials_append, countDials_append,
              countDials_get_cookie, ucm_request_sent, countDials_get_cookie,
              ucm_request_sent]
            simp [countDials, isDialReq]
          · rw [countDials_append, countDials_append, countDials_append,
              countDials_get_cookie, ucm_request_sent, countDials_get_cookie,
              ucm_request_sent]
            simp [countDials, isDialReq]
  · simp only [ucm_dial_outbound]
    split
    · intro h2
      rw [countDials_get_cookie] at h2
      exact absurd h2 (by simp)
    · split
      · intro h2
        rw [countDials_append, countDials_get_cookie, ucm_request_sent] at h2
        exact absurd h2 (by simp [countDials, isDialReq])
      · split
        · intro h2
          rw [countDials_append, countDials_append, countDials_get_cookie,
            ucm_request_sent, countDials_get_cookie] at h2
          exact absurd h2 (by simp [countDials, isDialReq])
        · split
          · intro _
            exact List.mem_append_left _ (List.mem_append_right _
              (head_mem (get_cookie_reauth_head user password md5 now _ _
                (Or.inl rfl))))
          · intro _
            exact List.mem_append_left _ (List.mem_append_right _
              (head_mem (get_cookie_reauth_head user password md5 now _ _
                (Or.inl rfl))))

theorem C8_dial_cookie_retry_witness :
    ucm_get_cookie "u" "p" (fun s => s) 10
      { cookie := some "ck", cookie_time := 0 } [] =
      ⟨Except.ok "ck", { cookie := some "ck", cookie_time := 0 }, [], []⟩ ∧
    countDials (ucm_dial_outbound "u" "p" (fun s => s) 10
      { cookie := some "ck", cookie_time := 0 }
      [Except.error "boom", Except.ok { challenge := some "ch" },
       Except.ok { cookie := some "ck2" }, Except.ok {}] "100" "+39").sent ≤ 2 ∧
    Req.challenge "u" ∈ (ucm_dial_outbound "u" "p" (fun s => s) 10
      { cookie := some "ck", cookie_time := 0 }
      [Except.error "boom", Except.ok { challenge := some "ch" },
       Except.ok { cookie := some "ck2" }, Except.ok {}] "100" "+39").sent := by
  have h := C8_dial_cookie_retry "u" "p" (fun s => s) 10
    { cookie := some "ck", cookie_time := 0 }
    [Except.error "boom", Except.ok { challenge := some "ch" },
     Except.ok { cookie := some "ck2" }, Except.ok {}] "100" "+39"
  have h0 := C8_dial_cookie_retry "u" "p" (fun s => s) 10
    { cookie := some "ck", cookie_time := 0 } [] "100" "+39"
  exact ⟨h0.1 (by decide) (by decide), h.2.2.1, h.2.2.2 (by decide)⟩

end UcmClient
